import Mathlib

/-!
Verification development for the SQLhelper DDL-to-schema conversion core.

The TypeScript source (dialect detection, DDL parsing, output formatting) is
shallowly embedded over `List Char`.  JavaScript strings become `List Char`,
JavaScript numbers become `Rat` (with the non-finite values `Infinity` and
`-Infinity` modelled explicitly where the code can produce them), thrown
exceptions become `Except`, and the regular expressions of the source are
ported as deterministic character scanners that reproduce the behaviour of
the original patterns, including the relevant backtracking cases.
-/

namespace SQLhelper

/-- JavaScript strings are modelled as lists of characters. -/
abbrev Str := List Char

/-- The backtick quote character, written numerically. -/
def btick : Char := Char.ofNat 96

/-- The double quote character, written numerically. -/
def dquote : Char := Char.ofNat 34

/-- The single quote character, written numerically. -/
def squote : Char := Char.ofNat 39

/-- The NUL character, used to model the empty `stringChar` sentinel. -/
def nulChar : Char := Char.ofNat 0

/-- The set of characters matched by the JavaScript `\s` class and trimmed by
`String.prototype.trim` (ASCII whitespace plus the Unicode space separators). -/
def jsWhitespace (c : Char) : Bool :=
  c.toNat = 9 || c.toNat = 10 || c.toNat = 11 || c.toNat = 12 || c.toNat = 13 ||
  c.toNat = 32 || c.toNat = 160 || c.toNat = 0x1680 ||
  (0x2000 ≤ c.toNat && c.toNat ≤ 0x200A) ||
  c.toNat = 0x2028 || c.toNat = 0x2029 || c.toNat = 0x202F || c.toNat = 0x205F ||
  c.toNat = 0x3000 || c.toNat = 0xFEFF

/-- Line terminators for the JavaScript `.` / `$` (multiline) semantics. -/
def lineTerminator (c : Char) : Bool :=
  c.toNat = 10 || c.toNat = 13 || c.toNat = 0x2028 || c.toNat = 0x2029

/-- ASCII uppercase conversion, modelling `String.prototype.toUpperCase` on the
ASCII fragment (non-ASCII characters are left unchanged). -/
def upChar (c : Char) : Char :=
  if 97 ≤ c.toNat ∧ c.toNat ≤ 122 then Char.ofNat (c.toNat - 32) else c

/-- ASCII lowercase conversion, modelling `String.prototype.toLowerCase`. -/
def lowChar (c : Char) : Char :=
  if 65 ≤ c.toNat ∧ c.toNat ≤ 90 then Char.ofNat (c.toNat + 32) else c

/-- Uppercase a string. -/
def upStr (s : Str) : Str := s.map upChar

/-- Lowercase a string. -/
def lowStr (s : Str) : Str := s.map lowChar

/-- Characters of the JavaScript `\w` class. -/
def wordChar (c : Char) : Bool :=
  (65 ≤ c.toNat && c.toNat ≤ 90) || (97 ≤ c.toNat && c.toNat ≤ 122) ||
  (48 ≤ c.toNat && c.toNat ≤ 57) || c = '_'

/-- ASCII decimal digit test. -/
def isDigitL (c : Char) : Bool := 48 ≤ c.toNat && c.toNat ≤ 57

/-- ASCII letter test. -/
def asciiLetter (c : Char) : Bool :=
  (65 ≤ c.toNat && c.toNat ≤ 90) || (97 ≤ c.toNat && c.toNat ≤ 122)

/-- `String.prototype.trim`. -/
def trimL (s : Str) : Str :=
  ((s.dropWhile jsWhitespace).reverse.dropWhile jsWhitespace).reverse

/-- Does `s` start with the prefix `pre`? -/
def startsWithL : Str → Str → Bool
  | [], _ => true
  | _ :: _, [] => false
  | p :: ps, c :: cs => p = c && startsWithL ps cs

/-- `String.prototype.includes`: does `pat` occur as a contiguous substring
of `s`? -/
def includesL : Str → Str → Bool
  | [], pat => pat.isEmpty
  | c :: rest, pat => startsWithL pat (c :: rest) || includesL rest pat

/-- Worker for `collapseWs`; the flag records whether the scanner is inside a
whitespace run whose replacement space has already been emitted. -/
def collapseWsGo : Bool → Str → Str
  | _, [] => []
  | inRun, c :: rest =>
    if jsWhitespace c then
      if inRun then collapseWsGo true rest
      else ' ' :: collapseWsGo true rest
    else c :: collapseWsGo false rest

/-- The whitespace-collapsing pass: every maximal whitespace run becomes one
space (the global whitespace replacement of the source). -/
def collapseWs (s : Str) : Str := collapseWsGo false s

/-- Worker for `stripLineComments`; the flag records whether the scanner is
inside a `--` comment (which ends just before the next line terminator). -/
def stripLineCommentsGo : Bool → Str → Str
  | _, [] => []
  | true, c :: rest =>
    if lineTerminator c then c :: stripLineCommentsGo false rest
    else stripLineCommentsGo true rest
  | false, c :: rest =>
    if c = '-' ∧ rest.head? = some '-' then stripLineCommentsGo true rest
    else c :: stripLineCommentsGo false rest

/-- The line-comment removal pass of `cleanSql`: drop `--` line comments
(each comment ends just before the next line terminator). -/
def stripLineComments (s : Str) : Str := stripLineCommentsGo false s

/-- Find the first closing comment sequence and return the remainder after it. -/
def findCloseBlock : Str → Option Str
  | [] => none
  | c :: rest =>
    if c = '*' ∧ rest.head? = some '/' then some (rest.drop 1)
    else findCloseBlock rest

/-- Fueled worker for `stripBlockComments`. -/
def stripBlockGo : Nat → Str → Str
  | 0, s => s
  | _ + 1, [] => []
  | fuel + 1, c :: rest =>
    if c = '/' ∧ rest.head? = some '*' then
      match findCloseBlock (rest.drop 1) with
      | some rem => stripBlockGo fuel rem
      | none => c :: rest
    else c :: stripBlockGo fuel rest

/-- The block-comment removal pass of `cleanSql`: drop lazily matched block
comments; an unterminated opener is left in place (the pattern has no match). -/
def stripBlockComments (s : Str) : Str := stripBlockGo s.length s

/-- `DdlParserService.cleanSql`: strip line comments, strip block comments,
collapse whitespace runs to single spaces, and trim. -/
def cleanSql (s : Str) : Str :=
  trimL (collapseWs (stripBlockComments (stripLineComments s)))

/-- Worker for `splitOnComma`, accumulating the current piece reversed. -/
def splitOnCommaGo : Str → Str → List Str
  | [], cur => [cur.reverse]
  | c :: rest, cur =>
    if c = ',' then cur.reverse :: splitOnCommaGo rest []
    else splitOnCommaGo rest (c :: cur)

/-- `String.prototype.split(",")`: always returns at least one piece. -/
def splitOnComma (s : Str) : List Str := splitOnCommaGo s []

/-- `Array.prototype.join` with a one-character separator. -/
def joinSep (sep : Str) : List Str → Str
  | [] => []
  | [x] => x
  | x :: y :: rest => x ++ sep ++ joinSep sep (y :: rest)

/-- `DdlParserService.cleanIdentifier`: remove backticks, double quotes,
single quotes and square brackets, then trim. -/
def cleanIdentifier (s : Str) : Str :=
  trimL (s.filter (fun c => ¬(c = btick ∨ c = dquote ∨ c = squote ∨ c = '[' ∨ c = ']')))

/-- The closed enumeration of supported SQL dialects. -/
inductive SqlDialect where
  | mysql
  | postgres
  | mssql
  | sqlite
  | oracle
deriving DecidableEq

/-- The dialects in the declaration order of the pattern table (the order in
which the detection loop visits them and in which ties are broken). -/
def dialectOrder : List SqlDialect :=
  [.mysql, .postgres, .mssql, .sqlite, .oracle]

/-- The lowercase name of a dialect. -/
def dialectText : SqlDialect → Str
  | .mysql => "mysql".data
  | .postgres => "postgres".data
  | .mssql => "mssql".data
  | .sqlite => "sqlite".data
  | .oracle => "oracle".data

/-- The keyword signature list of each dialect (weight 1 per hit). -/
def dialectKeywords : SqlDialect → List Str
  | .mysql =>
    ["ENGINE=".data, "AUTO_INCREMENT".data, "CHARSET=".data, "COLLATE=".data,
     "UNSIGNED".data, "ZEROFILL".data, "TINYINT".data, "MEDIUMINT".data,
     "LONGTEXT".data, "MEDIUMTEXT".data, "TINYTEXT".data, "ENUM(".data,
     "SET(".data, "BINARY(".data, "VARBINARY(".data, "YEAR(".data,
     "IF NOT EXISTS".data, "COMMENT=".data, "KEY ".data, "FULLTEXT".data,
     "SPATIAL".data]
  | .postgres =>
    ["SERIAL".data, "BIGSERIAL".data, "SMALLSERIAL".data, "BYTEA".data,
     "JSONB".data, "UUID".data, "INET".data, "CIDR".data, "MACADDR".data,
     "TSQUERY".data, "TSVECTOR".data, "INTERVAL".data, "ARRAY".data,
     "CONSTRAINT".data, "INHERITS".data, "TABLESPACE".data, "OWNER TO".data,
     "TEMPLATE".data, "ENCODING".data, "LC_COLLATE".data, "LC_CTYPE".data]
  | .mssql =>
    ["IDENTITY(".data, "NVARCHAR".data, "NCHAR".data, "NTEXT".data,
     "UNIQUEIDENTIFIER".data, "DATETIME2".data, "DATETIMEOFFSET".data,
     "HIERARCHYID".data, "GEOGRAPHY".data, "GEOMETRY".data, "XML".data,
     "MONEY".data, "SMALLMONEY".data, "ROWVERSION".data, "TIMESTAMP".data,
     "IMAGE".data, "CLUSTERED".data, "NONCLUSTERED".data, "FILEGROUP".data,
     "COLLATE".data]
  | .sqlite =>
    ["AUTOINCREMENT".data, "WITHOUT ROWID".data, "STRICT".data,
     "IF NOT EXISTS".data, "TEMP".data, "TEMPORARY".data]
  | .oracle =>
    ["NUMBER(".data, "VARCHAR2".data, "NVARCHAR2".data, "CLOB".data,
     "NCLOB".data, "BLOB".data, "BFILE".data, "ROWID".data, "UROWID".data,
     "XMLType".data, "TIMESTAMP WITH TIME ZONE".data,
     "TIMESTAMP WITH LOCAL TIME ZONE".data, "INTERVAL YEAR TO MONTH".data,
     "INTERVAL DAY TO SECOND".data, "BINARY_FLOAT".data, "BINARY_DOUBLE".data,
     "TABLESPACE".data, "ORGANIZATION INDEX".data, "COMPRESS".data,
     "NOCOMPRESS".data]

/-- The function signature list of each dialect (weight 0.8 per hit). -/
def dialectFunctions : SqlDialect → List Str
  | .mysql => ["NOW()".data, "CURDATE()".data, "CURTIME()".data, "UUID()".data]
  | .postgres =>
    ["CURRENT_TIMESTAMP".data, "CURRENT_DATE".data, "CURRENT_TIME".data,
     "GEN_RANDOM_UUID()".data]
  | .mssql =>
    ["GETDATE()".data, "GETUTCDATE()".data, "NEWID()".data, "SYSDATETIME()".data]
  | .sqlite => ["DATETIME()".data, "DATE()".data, "TIME()".data, "RANDOM()".data]
  | .oracle =>
    ["SYSDATE".data, "SYSTIMESTAMP".data, "SYS_GUID()".data,
     "CURRENT_TIMESTAMP".data]

/-- The quote markers of each dialect (weight 0.3 per hit, checked against the
raw input rather than the normalized input). -/
def dialectQuotes : SqlDialect → List Str
  | .mysql => [[btick]]
  | .postgres => [[dquote]]
  | .mssql => [['['], [']']]
  | .sqlite => [['['], [']'], [dquote]]
  | .oracle => [[dquote]]

/-- The normalization applied before keyword matching: uppercase, collapse
whitespace runs to single spaces, trim. -/
def normalizeDetect (sql : Str) : Str := trimL (collapseWs (upStr sql))

/-- The strong-indicator heuristic of `applyAdditionalHeuristics` (weight 2
when any of a small per-dialect set occurs in the normalized input). -/
def strongHit (norm : Str) : SqlDialect → Bool
  | .mysql => includesL norm "ENGINE=".data || includesL norm "AUTO_INCREMENT".data
  | .postgres =>
    includesL norm "SERIAL".data || includesL norm "JSONB".data ||
    includesL norm "::".data
  | .mssql =>
    includesL norm "IDENTITY(".data || includesL norm "NVARCHAR".data ||
    includesL norm "[DBO]".data
  | .sqlite =>
    includesL norm "AUTOINCREMENT".data || includesL norm "WITHOUT ROWID".data
  | .oracle =>
    includesL norm "NUMBER(".data || includesL norm "VARCHAR2".data ||
    includesL norm "SYSDATE".data

/-- Count how many of the given uppercased patterns occur in the normalized
input. -/
def countHits (norm : Str) (pats : List Str) : Nat :=
  (pats.filter (fun p => includesL norm (upStr p))).length

/-- Count how many of the given quote markers occur in the raw input. -/
def quoteHits (raw : Str) (pats : List Str) : Nat :=
  (pats.filter (fun p => includesL raw p)).length

/-- The final weighted score of one dialect: keywords weigh 1, functions 0.8,
quote markers 0.3, plus 2 when a strong indicator is present. -/
def scoreOf (sql : Str) (d : SqlDialect) : ℚ :=
  (countHits (normalizeDetect sql) (dialectKeywords d) : ℚ)
  + (4 / 5) * (countHits (normalizeDetect sql) (dialectFunctions d) : ℚ)
  + (3 / 10) * (quoteHits sql (dialectQuotes d) : ℚ)
  + (if strongHit (normalizeDetect sql) d then 2 else 0)

/-- The keyword hit descriptions pushed for one dialect, in list order. -/
def keywordReasons (sql : Str) (d : SqlDialect) : List Str :=
  ((dialectKeywords d).filter (fun p => includesL (normalizeDetect sql) (upStr p))).map
    (fun p => "Found ".data ++ upStr (dialectText d) ++ " keyword: ".data ++ p)

/-- The function hit descriptions pushed for one dialect, in list order. -/
def functionReasons (sql : Str) (d : SqlDialect) : List Str :=
  ((dialectFunctions d).filter (fun p => includesL (normalizeDetect sql) (upStr p))).map
    (fun p => "Found ".data ++ upStr (dialectText d) ++ " function: ".data ++ p)

/-- The strong-indicator description of one dialect. -/
def strongReason : SqlDialect → Str
  | .mysql => "Strong MySQL indicators found".data
  | .postgres => "Strong PostgreSQL indicators found".data
  | .mssql => "Strong SQL Server indicators found".data
  | .sqlite => "Strong SQLite indicators found".data
  | .oracle => "Strong Oracle indicators found".data

/-- The strong-indicator descriptions pushed by the heuristics pass. -/
def strongReasons (sql : Str) : List Str :=
  (dialectOrder.filter (strongHit (normalizeDetect sql))).map strongReason

/-- The sum of all dialect scores. -/
def totalScoreOf (sql : Str) : ℚ :=
  scoreOf sql .mysql + scoreOf sql .postgres + scoreOf sql .mssql +
  scoreOf sql .sqlite + scoreOf sql .oracle

/-- The maximum dialect score. -/
def maxScoreOf (sql : Str) : ℚ :=
  max (scoreOf sql .mysql)
    (max (scoreOf sql .postgres)
      (max (scoreOf sql .mssql) (max (scoreOf sql .sqlite) (scoreOf sql .oracle))))

/-- The generic note appended when the input shows all four generic keywords
and every dialect scored below 1. -/
def genericReasons (sql : Str) : List Str :=
  if (["CREATE TABLE".data, "PRIMARY KEY".data, "FOREIGN KEY".data,
      "NOT NULL".data].all (fun k => includesL (normalizeDetect sql) k))
      ∧ (dialectOrder.all (fun d => scoreOf sql d < 1)) then
    ["Only generic SQL keywords found".data]
  else []

/-- The complete reason list in discovery order: per-dialect keyword and
function hits, then strong-indicator notes, then the generic note. -/
def allReasons (sql : Str) : List Str :=
  (dialectOrder.flatMap (fun d => keywordReasons sql d ++ functionReasons sql d))
  ++ strongReasons sql ++ genericReasons sql

/-- The first dialect (in declaration order) whose score attains the maximum. -/
def winnerOf (sql : Str) : Option SqlDialect :=
  dialectOrder.find? (fun d => scoreOf sql d = maxScoreOf sql)

/-- The unrounded confidence computed by the source: zero when the total score
is not positive, otherwise the score ratio clipped to 1. -/
def rawConfidenceOf (sql : Str) : ℚ :=
  if totalScoreOf sql > 0 then
    min (maxScoreOf sql / max (totalScoreOf sql * (7 / 10)) 1) 1
  else 0

/-- `Math.round (q * 100) / 100`: round to two decimals, halves up. -/
def round2 (q : ℚ) : ℚ := ((⌊q * 100 + 1 / 2⌋ : ℤ) : ℚ) / 100

/-- The result record of dialect detection; `none` models `unknown`. -/
structure DialectDetection where
  dialect : Option SqlDialect
  confidence : ℚ
  reasons : List Str
deriving DecidableEq

/-- `DialectDetectionService.detectDialect`: score every dialect, pick the
first maximal one, compute the confidence, report `unknown` when the
unrounded confidence is at most 0.3, and return at most ten reasons. -/
def detectDialect (sql : Str) : DialectDetection :=
  let conf := rawConfidenceOf sql
  { dialect :=
      if conf > 3 / 10 then
        match winnerOf sql with
        | some d => some d
        | none => none
      else none
    confidence := round2 conf
    reasons := (allReasons sql).take 10 }

/-- `DialectDetectionService.forceDialect`. -/
def forceDialect (d : SqlDialect) : DialectDetection :=
  { dialect := some d
    confidence := 1
    reasons :=
      ["Dialect manually specified as ".data ++ upStr (dialectText d)] }

/-- A JavaScript number value as produced by `Number(...)` on a token the
parser stores: a finite rational, or one of the two infinities (`NaN` never
reaches storage because the code tests `isNaN` first). -/
inductive JsNum where
  | fin (q : ℚ)
  | inf
  | negInf
deriving DecidableEq

/-- A default value as stored by the column parser:
`string | number | boolean | null`. -/
inductive JsPrim where
  | nil
  | bool (b : Bool)
  | num (n : JsNum)
  | str (s : Str)
deriving DecidableEq

/-- The column type record; only `type`, `length` and `scale` are ever set by
the parser.  The numeric fields hold JavaScript numbers. -/
structure ColumnType where
  type : Str
  length : Option ℚ := none
  scale : Option ℚ := none
deriving DecidableEq

/-- A parsed column. -/
structure Column where
  name : Str
  type : ColumnType
  nullable : Bool
  autoIncrement : Bool
  default : Option JsPrim := none
deriving DecidableEq

/-- The referential actions of a foreign key. -/
inductive FkAction where
  | cascade
  | setNull
  | setDefault
  | restrict
  | noAction
deriving DecidableEq

/-- The SQL text of a referential action (uppercased, single spaces). -/
def fkActionText : FkAction → Str
  | .cascade => "CASCADE".data
  | .setNull => "SET NULL".data
  | .setDefault => "SET DEFAULT".data
  | .restrict => "RESTRICT".data
  | .noAction => "NO ACTION".data

/-- A parsed foreign key. -/
structure ForeignKey where
  name : Str
  columns : List Str
  referencedTable : Str
  referencedColumns : List Str
  onUpdate : Option FkAction := none
  onDelete : Option FkAction := none
deriving DecidableEq

/-- A parsed index; the parser always emits `type = "INDEX"` and
`unique = false`. -/
structure IndexDef where
  name : Str
  type : Str
  columns : List Str
  unique : Bool
deriving DecidableEq

/-- A parsed table. -/
structure Table where
  name : Str
  columns : List Column
  primaryKey : Option (List Str) := none
  uniqueKeys : List (List Str)
  indexes : List IndexDef
  foreignKeys : List ForeignKey
deriving DecidableEq

/-- The normalized database schema produced by `parseDdl`. -/
structure DatabaseSchema where
  dialect : SqlDialect
  tables : List Table
  version : Str
deriving DecidableEq

/-- The caller-facing partial option record (each field may be absent). -/
structure ParseOptionsIn where
  inferDialect : Option Bool := none
  includeIndexes : Option Bool := none
  includeActions : Option Bool := none
  strict : Option Bool := none
deriving DecidableEq

/-- The fully defaulted option record used internally. -/
structure ValidatedParseOptions where
  inferDialect : Bool
  includeIndexes : Bool
  includeActions : Bool
  strict : Bool
deriving DecidableEq

/-- The option merging of `parseDdl`: the three inclusion options default to
true (they are false only when explicitly `false`), and `strict` defaults to
false (it is true only when explicitly `true`). -/
def mergeOptions (o : ParseOptionsIn) : ValidatedParseOptions :=
  { inferDialect := match o.inferDialect with | some false => false | _ => true
    includeIndexes := match o.includeIndexes with | some false => false | _ => true
    includeActions := match o.includeActions with | some false => false | _ => true
    strict := match o.strict with | some true => true | _ => false }

/-- The errors a single table body can raise. -/
inductive TableErr where
  | colName (statement : Str)
  | colType (statement : Str)
  | invalidFk (statement : Str)
  | invalidIndex (statement : Str)
deriving DecidableEq

/-- The errors `parseDdl` can raise. -/
inductive ParseErr where
  | emptySql
  | unknownDialect
  | strictModeParse
  | tableFail (tableName : Str) (err : TableErr)
deriving DecidableEq

/-- Numeric value of a run of decimal digits. -/
def digitsVal (ds : Str) : Nat :=
  ds.foldl (fun a c => a * 10 + (c.toNat - 48)) 0

/-- The value of one digit in a given radix, if valid. -/
def radixDigit (radix : Nat) (c : Char) : Option Nat :=
  let v :=
    if 48 ≤ c.toNat ∧ c.toNat ≤ 57 then some (c.toNat - 48)
    else if 97 ≤ c.toNat ∧ c.toNat ≤ 102 then some (c.toNat - 87)
    else if 65 ≤ c.toNat ∧ c.toNat ≤ 70 then some (c.toNat - 55)
    else none
  match v with
  | some n => if n < radix then some n else none
  | none => none

/-- Parse a nonempty all-digit string in the given radix. -/
def parseRadixDigits (radix : Nat) : Str → Option Nat
  | [] => none
  | [c] => radixDigit radix c
  | c :: rest =>
    match radixDigit radix c, parseRadixDigits radix rest with
    | some d, some n => some (d * radix ^ rest.length + n)
    | _, _ => none

/-- Parse a complete JavaScript decimal literal (digits, optional fraction,
optional exponent); the whole input must be consumed. -/
def parseDecimalRat (t : Str) : Option ℚ :=
  let ip := t.takeWhile isDigitL
  let r1 := t.drop ip.length
  let fp := match r1 with
    | '.' :: rr => rr.takeWhile isDigitL
    | _ => []
  let r2 := match r1 with
    | '.' :: rr => rr.drop fp.length
    | _ => r1
  if ip.isEmpty ∧ fp.isEmpty then none
  else
    let base : ℚ := (digitsVal ip : ℚ) + (digitsVal fp : ℚ) / ((10 : ℚ) ^ fp.length)
    match r2 with
    | [] => some base
    | e :: r3 =>
      if e = 'e' ∨ e = 'E' then
        let pos := match r3 with
          | '-' :: _ => false
          | _ => true
        let r4 := match r3 with
          | '+' :: rr => rr
          | '-' :: rr => rr
          | _ => r3
        let ds := r4.takeWhile isDigitL
        if ds.isEmpty ∨ ¬(r4.drop ds.length).isEmpty then none
        else some (if pos then base * (10 : ℚ) ^ digitsVal ds
                   else base / (10 : ℚ) ^ digitsVal ds)
      else none

/-- Parse an unsigned `Number(...)` body: the `Infinity` literal, a radix
literal, or a decimal literal.  Finite-range overflow to `Infinity` is not
modelled (values stay exact rationals). -/
def jsNumUnsigned (t : Str) : Option JsNum :=
  if t = "Infinity".data then some .inf
  else match t with
    | '0' :: x :: r =>
      if x = 'x' ∨ x = 'X' then (parseRadixDigits 16 r).map (fun n => .fin n)
      else if x = 'o' ∨ x = 'O' then (parseRadixDigits 8 r).map (fun n => .fin n)
      else if x = 'b' ∨ x = 'B' then (parseRadixDigits 2 r).map (fun n => .fin n)
      else (parseDecimalRat ('0' :: x :: r)).map .fin
    | _ => (parseDecimalRat t).map .fin

/-- The JavaScript `Number(string)` conversion; `none` models `NaN`.  The
empty (or all-whitespace) string converts to 0; a sign is allowed only before
a decimal literal or `Infinity`. -/
def jsNumber (s : Str) : Option JsNum :=
  let t := trimL s
  if t.isEmpty then some (.fin 0)
  else match t with
    | '+' :: r =>
      if r = "Infinity".data then some .inf else (parseDecimalRat r).map .fin
    | '-' :: r =>
      if r = "Infinity".data then some .negInf
      else (parseDecimalRat r).map (fun q => .fin (-q))
    | _ => jsNumUnsigned t

/-- The JavaScript `parseInt(string)` conversion (radix auto-detected from a
`0x` prefix, longest valid digit prefix, trailing characters ignored);
`none` models `NaN`. -/
def parseIntJs (s : Str) : Option ℚ :=
  let t := trimL s
  let neg := match t with
    | '-' :: _ => true
    | _ => false
  let t2 := match t with
    | '+' :: r => r
    | '-' :: r => r
    | _ => t
  let hex : Bool := match t2 with
    | '0' :: x :: _ => x == 'x' || x == 'X'
    | _ => false
  let digits :=
    if hex then (t2.drop 2).takeWhile (fun c => (radixDigit 16 c).isSome)
    else t2.takeWhile isDigitL
  if digits.isEmpty then none
  else
    let v : ℚ :=
      if hex then ((digits.foldl (fun a c => a * 16 + ((radixDigit 16 c).getD 0)) 0 : Nat) : ℚ)
      else (digitsVal digits : ℚ)
    some (if neg then -v else v)

/-- Case-insensitive literal match: consume `word` from the front of `s`
(comparing uppercased characters) and return the rest. -/
def matchCI : Str → Str → Option Str
  | [], s => some s
  | _ :: _, [] => none
  | p :: ps, c :: cs => if upChar c = upChar p then matchCI ps cs else none

/-- Greedy one-or-more whitespace. -/
def ws1 : Str → Option Str
  | [] => none
  | c :: cs => if jsWhitespace c then some (cs.dropWhile jsWhitespace) else none

/-- Greedy zero-or-more whitespace. -/
def wsStar (s : Str) : Str := s.dropWhile jsWhitespace

/-- Try a scanner at every position (leftmost match wins), like an unanchored
regular-expression search. -/
def scanMatch (m : Str → Option α) : Str → Option α
  | [] => none
  | c :: rest =>
    match m (c :: rest) with
    | some r => some r
    | none => scanMatch m rest

/-- The parenthesized group used by the constraint patterns: an opening paren,
one or more characters other than a closing paren (taken greedily), then the
closing paren.  Returns the inner text and the rest after the closing paren. -/
def parenInner : Str → Option (Str × Str)
  | '(' :: r =>
    let inner := r.takeWhile (fun c => c ≠ ')')
    if inner.isEmpty then none
    else
      match r.drop inner.length with
      | ')' :: rest => some (inner, rest)
      | _ => none
  | _ => none

/-- The optional `IF NOT EXISTS` part of the table header pattern. -/
def matchIfNotExists (s : Str) : Option Str :=
  ((((matchCI "IF".data s).bind ws1).bind
    (matchCI "NOT".data)).bind ws1).bind
    (fun r => ((matchCI "EXISTS".data r).bind ws1))

/-- The table-name token of the header pattern: an optional backtick or double
quote, one or more word characters (greedy), and an optional closing backtick
or double quote.  Returns the raw token (quotes included) and the rest. -/
def matchNameToken (s : Str) : Option (Str × Str) :=
  let q1 : Str × Str := match s with
    | c :: cs => if c = btick ∨ c = dquote then ([c], cs) else ([], s)
    | [] => ([], [])
  let w := q1.2.takeWhile wordChar
  if w.isEmpty then none
  else
    let s2 := q1.2.drop w.length
    let q2 : Str × Str := match s2 with
      | c :: cs => if c = btick ∨ c = dquote then ([c], cs) else ([], s2)
      | [] => ([], s2)
    some (q1.1 ++ w ++ q2.1, q2.2)

/-- The anchored `CREATE TABLE` header pattern of `parseTableStatements`:
`CREATE`, optional `TEMPORARY`, `TABLE`, optional `IF NOT EXISTS`, the table
name token, optional whitespace, and the opening paren.  Returns the raw name
and the rest just after the opening paren (the regex lastIndex position). -/
def matchTableHeaderAt (s : Str) : Option (Str × Str) :=
  ((matchCI "CREATE".data s).bind ws1).bind fun r2 =>
  let r3 := match (matchCI "TEMPORARY".data r2).bind ws1 with
    | some r => r
    | none => r2
  ((matchCI "TABLE".data r3).bind ws1).bind fun r5 =>
  let r6 := match matchIfNotExists r5 with
    | some r => r
    | none => r5
  (matchNameToken r6).bind fun nm =>
  match wsStar nm.2 with
  | '(' :: r8 => some (nm.1, r8)
  | _ => none

/-- Find the leftmost header match in the remaining input. -/
def findNextHeader : Str → Option (Str × Str)
  | [] => none
  | c :: rest =>
    match matchTableHeaderAt (c :: rest) with
    | some r => some r
    | none => findNextHeader rest

/-- The body scan of `parseTableStatements`: starting just after the opening
paren at depth 1, track paren depth (quotes are not special here) and return
the characters before the matching closing paren; `none` when the input ends
first. -/
def extractBodyGo : Str → Nat → Str → Option Str
  | [], _, _ => none
  | c :: rest, depth, acc =>
    if c = '(' then extractBodyGo rest (depth + 1) (c :: acc)
    else if c = ')' then
      if depth = 1 then some acc.reverse
      else extractBodyGo rest (depth - 1) (c :: acc)
    else extractBodyGo rest depth (c :: acc)

/-- The table body following a header match. -/
def extractBody (s : Str) : Option Str := extractBodyGo s 1 []

/-- The scanner state of `splitTableStatements`. -/
structure SplitSt where
  stmts : List Str
  current : Str
  depth : Int
  inString : Bool
  stringChar : Char
deriving DecidableEq

/-- One step of the clause splitter, ported branch for branch: quote opening,
quote closing, paren tracking outside quotes, top-level comma as boundary,
otherwise accumulate (`current` is kept reversed). -/
def splitStep (st : SplitSt) (c : Char) : SplitSt :=
  if ¬st.inString ∧ (c = dquote ∨ c = squote ∨ c = btick) then
    { st with inString := true, stringChar := c, current := c :: st.current }
  else if st.inString ∧ c = st.stringChar then
    { st with inString := false, stringChar := nulChar, current := c :: st.current }
  else if ¬st.inString then
    if c = '(' then { st with depth := st.depth + 1, current := c :: st.current }
    else if c = ')' then { st with depth := st.depth - 1, current := c :: st.current }
    else if c = ',' ∧ st.depth = 0 then
      { st with stmts := st.stmts ++ [st.current.reverse], current := [] }
    else { st with current := c :: st.current }
  else { st with current := c :: st.current }

/-- The final step of the splitter: push the last accumulated piece only when
its trim is nonempty. -/
def finishSplit (st : SplitSt) : List Str :=
  if (trimL st.current.reverse).isEmpty then st.stmts
  else st.stmts ++ [st.current.reverse]

/-- `DdlParserService.splitTableStatements`: fold the splitter over the body
and push the final piece only when its trim is nonempty. -/
def splitTableStatements (body : Str) : List Str :=
  finishSplit (body.foldl splitStep ⟨[], [], 0, false, nulChar⟩)

/-- `DdlParserService.isColumnDefinition`: a clause is a column definition
when its trimmed uppercase form starts with none of the six reserved
keywords. -/
def isColumnDefinition (statement : Str) : Bool :=
  ¬startsWithL "PRIMARY KEY".data (upStr (trimL statement)) ∧
  ¬startsWithL "FOREIGN KEY".data (upStr (trimL statement)) ∧
  ¬startsWithL "UNIQUE".data (upStr (trimL statement)) ∧
  ¬startsWithL "INDEX".data (upStr (trimL statement)) ∧
  ¬startsWithL "KEY".data (upStr (trimL statement)) ∧
  ¬startsWithL "CONSTRAINT".data (upStr (trimL statement))

/-- `DdlParserService.isIndexDefinition`. -/
def isIndexDefinition (statement : Str) : Bool :=
  startsWithL "INDEX".data (upStr (trimL statement)) ∨
  startsWithL "KEY".data (upStr (trimL statement))

/-- The column-name token of the column patterns: an optional backtick,
double-quote or single-quote, one or more word characters, an optional
closing quote.  Returns the raw token and the rest. -/
def matchQuoteTokenCol (s : Str) : Option (Str × Str) :=
  let q1 : Str × Str := match s with
    | c :: cs => if c = btick ∨ c = dquote ∨ c = squote then ([c], cs) else ([], s)
    | [] => ([], [])
  let w := q1.2.takeWhile wordChar
  if w.isEmpty then none
  else
    let s2 := q1.2.drop w.length
    let q2 : Str × Str := match s2 with
      | c :: cs => if c = btick ∨ c = dquote ∨ c = squote then ([c], cs) else ([], s2)
      | [] => ([], s2)
    some (q1.1 ++ w ++ q2.1, q2.2)

/-- The type part of the column pattern, applied after the name token:
whitespace, a run of letters or underscores (the type keyword), then an
optional parenthesized parameter list matched lazily up to the first closing
paren (when the closing paren is missing the optional group simply fails and
the match succeeds without parameters). -/
def matchTypeAfterName (s : Str) : Option (Str × Option Str) :=
  (ws1 s).bind fun r =>
  let ty := r.takeWhile (fun c => asciiLetter c || c = '_')
  if ty.isEmpty then none
  else
    let r2 := wsStar (r.drop ty.length)
    match r2 with
    | '(' :: r4 =>
      let inner := r4.takeWhile (fun c => c ≠ ')')
      match r4.drop inner.length with
      | ')' :: _ => some (ty, some inner)
      | _ => some (ty, none)
    | _ => some (ty, none)

/-- The serial pseudo-type handling: when the uppercased clause mentions a
serial type, the stored type is the corresponding integer type. -/
def serialType (upper : Str) : Option Str :=
  if includesL upper "SERIAL".data ∨ includesL upper "BIGSERIAL".data ∨
      includesL upper "SMALLSERIAL".data then
    some (if includesL upper "BIGSERIAL".data then "BIGINT".data
          else if includesL upper "SMALLSERIAL".data then "SMALLINT".data
          else "INTEGER".data)
  else none

/-- The anchored `DEFAULT` pattern: the keyword, whitespace, then the
default-token capture.  The capture is exactly the greedy run of characters
other than whitespace, comma and closing paren: the character class admits
the opening paren, so after a maximal run the next character can never be an
opening paren, the trailing optional parenthesized group always matches
empty, and the pattern ends there, so no backtracking ever shortens the
run.  In particular a parenthesized default such as `NOW()` captures only
up to the closing paren exclusive, here `NOW(`. -/
def matchDefaultAt (s : Str) : Option Str :=
  ((matchCI "DEFAULT".data s).bind ws1).bind fun r =>
  let run := r.takeWhile (fun c => ¬jsWhitespace c ∧ c ≠ ',' ∧ c ≠ ')')
  if run.isEmpty then none
  else some run

/-- The classification of a captured default token: `NULL` (any case), the
exact literals `TRUE` and `FALSE`, a number when `Number(...)` is not `NaN`,
otherwise the token with single and double quotes removed. -/
def classifyDefault (tok : Str) : JsPrim :=
  if upStr tok = "NULL".data then .nil
  else if tok = "TRUE".data then .bool true
  else if tok = "FALSE".data then .bool false
  else
    match jsNumber tok with
    | some n => .num n
    | none => .str (tok.filter (fun c => ¬(c = squote ∨ c = dquote)))

/-- `DdlParserService.parseColumnDefinition`, ported clause for clause. -/
def parseColumnDefinition (statement : Str) (_dialect : SqlDialect) :
    Except TableErr Column :=
  let trimmed := trimL statement
  match matchQuoteTokenCol trimmed with
  | none => .error (.colName statement)
  | some (rawName, restAfterName) =>
    let name := cleanIdentifier rawName
    let upper := upStr statement
    let actual? := serialType upper
    let tyMatch? := matchTypeAfterName restAfterName
    match tyMatch?, actual? with
    | none, none => .error (.colType statement)
    | _, _ =>
      let typeName : Str :=
        match actual? with
        | some t => t
        | none =>
          match tyMatch? with
          | some (ty, _) => upStr ty
          | none => "VARCHAR".data
      let params? : Option Str :=
        match tyMatch? with
        | some (_, p) => p
        | none => none
      let len? : Option ℚ :=
        match params? with
        | some inner =>
          match ((splitOnComma inner).map trimL).get? 0 with
          | some p => parseIntJs p
          | none => none
        | none => none
      let scale? : Option ℚ :=
        match params? with
        | some inner =>
          match ((splitOnComma inner).map trimL).get? 1 with
          | some p => parseIntJs p
          | none => none
        | none => none
      let nullable := ¬includesL upper "NOT NULL".data
      let autoIncrement :=
        actual?.isSome ∨
        includesL upper "AUTO_INCREMENT".data ∨
        includesL upper "AUTOINCREMENT".data ∨
        includesL upper "IDENTITY".data ∨
        includesL upper "GENERATED BY DEFAULT AS IDENTITY".data ∨
        includesL upper "GENERATED ALWAYS AS IDENTITY".data
      let default? :=
        (scanMatch matchDefaultAt statement).map classifyDefault
      .ok { name := name
            type := { type := typeName, length := len?, scale := scale? }
            nullable := nullable
            autoIncrement := autoIncrement
            default := default? }

/-- The anchored `PRIMARY KEY` pattern, returning the inner column list. -/
def matchPrimaryKeyAt (s : Str) : Option Str :=
  (((matchCI "PRIMARY".data s).bind ws1).bind (matchCI "KEY".data)).bind fun r =>
  (parenInner (wsStar r)).map Prod.fst

/-- `DdlParserService.parsePrimaryKey`: an empty list when the pattern does
not match anywhere. -/
def parsePrimaryKey (statement : Str) : List Str :=
  match scanMatch matchPrimaryKeyAt statement with
  | some inner => (splitOnComma inner).map (fun c => cleanIdentifier (trimL c))
  | none => []

/-- The anchored `UNIQUE` pattern with its optional `KEY` part (the fallback
branch reproduces the regex backtracking and can never succeed after the
keyword branch has consumed `KEY`). -/
def matchUniqueKeyAt (s : Str) : Option Str :=
  (matchCI "UNIQUE".data s).bind fun r1 =>
  let r2 := wsStar r1
  match matchCI "KEY".data r2 with
  | some rk =>
    match parenInner (wsStar rk) with
    | some inner => some inner.1
    | none => (parenInner r2).map Prod.fst
  | none => (parenInner r2).map Prod.fst

/-- `DdlParserService.parseUniqueKey`. -/
def parseUniqueKey (statement : Str) : List Str :=
  match scanMatch matchUniqueKeyAt statement with
  | some inner => (splitOnComma inner).map (fun c => cleanIdentifier (trimL c))
  | none => []

/-- The referential-action alternation, tried in source order; returns the
action and the rest of the input. -/
def matchActionR (s : Str) : Option (FkAction × Str) :=
  match matchCI "CASCADE".data s with
  | some r => some (.cascade, r)
  | none =>
    match ((matchCI "SET".data s).bind ws1).bind (matchCI "NULL".data) with
    | some r => some (.setNull, r)
    | none =>
      match ((matchCI "SET".data s).bind ws1).bind (matchCI "DEFAULT".data) with
      | some r => some (.setDefault, r)
      | none =>
        match matchCI "RESTRICT".data s with
        | some r => some (.restrict, r)
        | none =>
          (((matchCI "NO".data s).bind ws1).bind (matchCI "ACTION".data)).map
            (fun r => (.noAction, r))

/-- The anchored standalone `ON UPDATE`/`ON DELETE` pattern of
`parseForeignKey`. -/
def matchOnActionAt (word : Str) (s : Str) : Option FkAction :=
  (((((matchCI "ON".data s).bind ws1).bind (matchCI word)).bind ws1).bind
    matchActionR).map Prod.fst

/-- The anchored `FOREIGN KEY ... REFERENCES ...` pattern, returning the
constrained column list, the referenced table token and the referenced column
list. -/
def matchForeignKeyAt (s : Str) : Option (Str × Str × Str) :=
  (((matchCI "FOREIGN".data s).bind ws1).bind (matchCI "KEY".data)).bind fun r =>
  (parenInner (wsStar r)).bind fun cols =>
  ((matchCI "REFERENCES".data (wsStar cols.2)).bind ws1).bind fun r3 =>
  let tbl := r3.takeWhile (fun c => ¬jsWhitespace c ∧ c ≠ '(')
  if tbl.isEmpty then none
  else
    (parenInner (wsStar (r3.drop tbl.length))).map fun refCols =>
      (cols.1, tbl, refCols.1)

/-- `DdlParserService.parseForeignKey`: malformed clauses raise; the two
action clauses are searched independently over the whole statement. -/
def parseForeignKey (statement : Str) : Except TableErr ForeignKey :=
  match scanMatch matchForeignKeyAt statement with
  | none => .error (.invalidFk statement)
  | some (colsTxt, tbl, refColsTxt) =>
    let columns := (splitOnComma colsTxt).map (fun c => cleanIdentifier (trimL c))
    let referencedTable := cleanIdentifier tbl
    .ok { name := "fk_".data ++ joinSep "_".data columns ++ "_".data ++ referencedTable
          columns := columns
          referencedTable := referencedTable
          referencedColumns :=
            (splitOnComma refColsTxt).map (fun c => cleanIdentifier (trimL c))
          onUpdate := scanMatch (matchOnActionAt "UPDATE".data) statement
          onDelete := scanMatch (matchOnActionAt "DELETE".data) statement }

/-- The index-name-and-columns part shared by the `INDEX` and `KEY`
alternatives. -/
def matchIndexAfterKw (r : Str) : Option (Str × Str) :=
  (ws1 r).bind fun r2 =>
  let nm := r2.takeWhile (fun c => ¬jsWhitespace c ∧ c ≠ '(')
  if nm.isEmpty then none
  else
    (parenInner (wsStar (r2.drop nm.length))).map fun inner => (nm, inner.1)

/-- The anchored index pattern (`INDEX` tried before `KEY`). -/
def matchIndexAt (s : Str) : Option (Str × Str) :=
  match (matchCI "INDEX".data s).bind matchIndexAfterKw with
  | some v => some v
  | none => (matchCI "KEY".data s).bind matchIndexAfterKw

/-- `DdlParserService.parseIndexDefinition`. -/
def parseIndexDefinition (statement : Str) : Except TableErr IndexDef :=
  match scanMatch matchIndexAt statement with
  | none => .error (.invalidIndex statement)
  | some (nm, colsTxt) =>
    .ok { name := cleanIdentifier nm
          type := "INDEX".data
          columns := (splitOnComma colsTxt).map (fun c => cleanIdentifier (trimL c))
          unique := false }

/-- The anchored inline `REFERENCES` pattern used on column clauses: the
referenced table token, the referenced column group, then the optional
`ON DELETE` part followed by the optional `ON UPDATE` part (in that source
order). -/
def matchInlineFkAt (s : Str) :
    Option (Str × Str × Option FkAction × Option FkAction) :=
  ((matchCI "REFERENCES".data s).bind ws1).bind fun r =>
  let tbl := r.takeWhile (fun c => ¬jsWhitespace c ∧ c ≠ '(')
  if tbl.isEmpty then none
  else
    (parenInner (wsStar (r.drop tbl.length))).bind fun refCol =>
    let delTry : Option (FkAction × Str) :=
      ((((ws1 refCol.2).bind (matchCI "ON".data)).bind ws1).bind
        (matchCI "DELETE".data)).bind fun rr =>
        (ws1 rr).bind matchActionR
    let r3 := match delTry with
      | some (_, rr) => rr
      | none => refCol.2
    let updTry : Option (FkAction × Str) :=
      ((((ws1 r3).bind (matchCI "ON".data)).bind ws1).bind
        (matchCI "UPDATE".data)).bind fun rr =>
        (ws1 rr).bind matchActionR
    some (tbl, refCol.1, delTry.map Prod.fst, updTry.map Prod.fst)

/-- The clause-processing state of `parseTableDefinition`. -/
structure TableState where
  columns : List Column
  indexes : List IndexDef
  foreignKeys : List ForeignKey
  primaryKey : List Str
  uniqueKeys : List (List Str)
deriving DecidableEq

/-- The initial clause-processing state. -/
def initialTableState : TableState := ⟨[], [], [], [], []⟩

/-- One iteration of the clause loop of `parseTableDefinition`: column
definitions (with inline foreign-key detection), then the `PRIMARY KEY`,
`UNIQUE`, `FOREIGN KEY` and index branches; any other clause is skipped. -/
def processClause (tableName : Str) (dialect : SqlDialect)
    (options : ValidatedParseOptions) (st : TableState) (statement : Str) :
    Except TableErr TableState :=
  if isColumnDefinition (trimL statement) then
    match parseColumnDefinition (trimL statement) dialect with
    | .error e => .error e
    | .ok column =>
      match scanMatch matchInlineFkAt (trimL statement) with
      | some (tbl, refCol, onDel, onUpd) =>
        .ok { st with
          columns := st.columns ++ [column]
          foreignKeys := st.foreignKeys ++
            [{ name := "fk_".data ++ tableName ++ "_".data ++ column.name
               columns := [column.name]
               referencedTable := cleanIdentifier tbl
               referencedColumns := [cleanIdentifier refCol]
               onUpdate := onUpd
               onDelete := onDel }] }
      | none => .ok { st with columns := st.columns ++ [column] }
  else if startsWithL "PRIMARY KEY".data (upStr (trimL statement)) then
    .ok { st with primaryKey := parsePrimaryKey (trimL statement) }
  else if startsWithL "UNIQUE".data (upStr (trimL statement)) then
    .ok { st with uniqueKeys := st.uniqueKeys ++ [parseUniqueKey (trimL statement)] }
  else if startsWithL "FOREIGN KEY".data (upStr (trimL statement)) then
    match parseForeignKey (trimL statement) with
    | .error e => .error e
    | .ok fk => .ok { st with foreignKeys := st.foreignKeys ++ [fk] }
  else if options.includeIndexes ∧ isIndexDefinition (trimL statement) then
    match parseIndexDefinition (trimL statement) with
    | .error e => .error e
    | .ok idx => .ok { st with indexes := st.indexes ++ [idx] }
  else .ok st

/-- The clause loop. -/
def processClauses (tableName : Str) (dialect : SqlDialect)
    (options : ValidatedParseOptions) :
    List Str → TableState → Except TableErr TableState
  | [], st => .ok st
  | c :: rest, st =>
    match processClause tableName dialect options st c with
    | .error e => .error e
    | .ok st2 => processClauses tableName dialect options rest st2

/-- The implicit-primary-key candidate test: auto-increment, or a
non-nullable column whose lowercased name contains `id`. -/
def pkCandidate (col : Column) : Bool :=
  col.autoIncrement || (includesL (lowStr col.name) "id".data && ¬col.nullable)

/-- The implicit-primary-key promotion: when exactly one candidate column
exists it becomes the primary key, otherwise nothing is promoted. -/
def inferPrimaryKey (cols : List Column) : List Str :=
  match cols.filter pkCandidate with
  | [c] => [c.name]
  | _ => []

/-- `DdlParserService.parseTableDefinition`: split the body into clauses,
process them, promote an implicit primary key when none was declared, and
assemble the table. -/
def parseTableDefinition (tableName body : Str) (dialect : SqlDialect)
    (options : ValidatedParseOptions) : Except TableErr Table :=
  match processClauses tableName dialect options
      (splitTableStatements body) initialTableState with
  | .error e => .error e
  | .ok st =>
    .ok { name := tableName
          columns := st.columns
          primaryKey :=
            if (if st.primaryKey.length = 0 then inferPrimaryKey st.columns
                else st.primaryKey).length > 0 then
              some (if st.primaryKey.length = 0 then inferPrimaryKey st.columns
                    else st.primaryKey)
            else none
          uniqueKeys := st.uniqueKeys
          indexes := st.indexes
          foreignKeys := st.foreignKeys }

/-- The fueled header-scan loop of `parseTableStatements`: find a header,
extract the body (skipping unbalanced bodies), parse the table, and on a
table failure either abort (strict) or skip (non-strict).  Scanning always
resumes just after the header match, as the regex lastIndex does. -/
def parseTableStatementsGo (dialect : SqlDialect)
    (options : ValidatedParseOptions) : Nat → Str → Except ParseErr (List Table)
  | 0, _ => .ok []
  | fuel + 1, rest =>
    match findNextHeader rest with
    | none => .ok []
    | some (rawName, afterHeader) =>
      match extractBody afterHeader with
      | none => parseTableStatementsGo dialect options fuel afterHeader
      | some body =>
        match parseTableDefinition (cleanIdentifier rawName) body dialect options with
        | .ok table =>
          match parseTableStatementsGo dialect options fuel afterHeader with
          | .ok ts => .ok (table :: ts)
          | .error e => .error e
        | .error e =>
          if options.strict then .error (.tableFail (cleanIdentifier rawName) e)
          else parseTableStatementsGo dialect options fuel afterHeader

/-- `DdlParserService.parseTableStatements`. -/
def parseTableStatements (sql : Str) (dialect : SqlDialect)
    (options : ValidatedParseOptions) : Except ParseErr (List Table) :=
  parseTableStatementsGo dialect options (sql.length + 1) sql

/-- The anchored `CREATE [TEMPORARY] TABLE` token test used by the strict
zero-table guard. -/
def matchCreateTableTokenAt (s : Str) : Option Str :=
  ((matchCI "CREATE".data s).bind ws1).bind fun r2 =>
  let r3 := match (matchCI "TEMPORARY".data r2).bind ws1 with
    | some r => r
    | none => r2
  matchCI "TABLE".data r3

/-- Does the cleaned SQL still contain a `CREATE TABLE` token? -/
def containsCreateTable (s : Str) : Bool :=
  (scanMatch matchCreateTableTokenAt s).isSome

/-- `DdlParserService.parseDdl`: reject blank input, merge options, resolve
the dialect (explicit argument, else detection unless disabled), clean the
SQL, parse the tables, and apply the strict zero-table guard. -/
def parseDdl (sql : Str) (dialect : Option SqlDialect)
    (options : ParseOptionsIn) : Except ParseErr DatabaseSchema :=
  if (trimL sql).isEmpty then .error .emptySql
  else
    match (match dialect with
           | some d => some d
           | none =>
             if (mergeOptions options).inferDialect then (detectDialect sql).dialect
             else none) with
    | none => .error .unknownDialect
    | some d =>
      match parseTableStatements (cleanSql sql) d (mergeOptions options) with
      | .error e => .error e
      | .ok tables =>
        if (mergeOptions options).strict ∧ tables.length = 0 ∧
            containsCreateTable (cleanSql sql) then
          .error .strictModeParse
        else .ok { dialect := d, tables := tables, version := "1.0".data }

/-- A JSON value tree, as produced by serializing a schema with
`JSON.stringify(schema, null, 2)` and as recovered by `JSON.parse`.  The
rendered text and the tree determine each other, so the round-trip claim is
settled at the tree level. -/
inductive Json where
  | null
  | bool (b : Bool)
  | num (q : ℚ)
  | str (s : Str)
  | arr (elems : List Json)
  | obj (fields : List (Str × Json))

/-- Serialization of a stored default value.  `JSON.stringify` renders the
non-finite numbers as `null`. -/
def encodeJsPrim : JsPrim → Json
  | .nil => .null
  | .bool b => .bool b
  | .num (.fin q) => .num q
  | .num .inf => .null
  | .num .negInf => .null
  | .str s => .str s

/-- Serialization of a column type (absent optional fields are omitted, as
`JSON.stringify` omits properties holding `undefined`). -/
def encodeColumnType (t : ColumnType) : Json :=
  .obj ([("type".data, .str t.type)]
    ++ (match t.length with
        | some l => [("length".data, Json.num l)]
        | none => [])
    ++ (match t.scale with
        | some sc => [("scale".data, Json.num sc)]
        | none => []))

/-- Serialization of a column. -/
def encodeColumn (c : Column) : Json :=
  .obj ([("name".data, .str c.name),
         ("type".data, encodeColumnType c.type),
         ("nullable".data, .bool c.nullable),
         ("autoIncrement".data, .bool c.autoIncrement)]
    ++ (match c.default with
        | some v => [("default".data, encodeJsPrim v)]
        | none => []))

/-- Serialization of an index. -/
def encodeIndex (i : IndexDef) : Json :=
  .obj [("name".data, .str i.name),
        ("type".data, .str i.type),
        ("columns".data, .arr (i.columns.map .str)),
        ("unique".data, .bool i.unique)]

/-- Serialization of a foreign key. -/
def encodeForeignKey (fk : ForeignKey) : Json :=
  .obj ([("name".data, .str fk.name),
         ("columns".data, .arr (fk.columns.map .str)),
         ("referencedTable".data, .str fk.referencedTable),
         ("referencedColumns".data, .arr (fk.referencedColumns.map .str))]
    ++ (match fk.onUpdate with
        | some a => [("onUpdate".data, Json.str (fkActionText a))]
        | none => [])
    ++ (match fk.onDelete with
        | some a => [("onDelete".data, Json.str (fkActionText a))]
        | none => []))

/-- Serialization of a table. -/
def encodeTable (t : Table) : Json :=
  .obj ([("name".data, .str t.name),
         ("columns".data, .arr (t.columns.map encodeColumn))]
    ++ (match t.primaryKey with
        | some pk => [("primaryKey".data, Json.arr (pk.map .str))]
        | none => [])
    ++ [("uniqueKeys".data, .arr (t.uniqueKeys.map (fun u => Json.arr (u.map .str)))),
        ("indexes".data, .arr (t.indexes.map encodeIndex)),
        ("foreignKeys".data, .arr (t.foreignKeys.map encodeForeignKey))])

/-- `OutputFormatService.toJSON` modelled at the JSON-value level: the exact
structural serialization of the schema object. -/
def toJSON (schema : DatabaseSchema) : Json :=
  .obj [("dialect".data, .str (dialectText schema.dialect)),
        ("tables".data, .arr (schema.tables.map encodeTable)),
        ("version".data, .str schema.version)]

/-- Field lookup in a deserialized JSON object. -/
def getField : List (Str × Json) → Str → Option Json
  | [], _ => none
  | (k2, v) :: rest, k => if k2 = k then some v else getField rest k

/-- All-or-nothing traversal of a list with a partial decoder. -/
def mapMOpt (f : α → Option β) : List α → Option (List β)
  | [] => some []
  | a :: rest =>
    match f a with
    | none => none
    | some b => (mapMOpt f rest).map (fun bs => b :: bs)

/-- Decode a JSON string. -/
def decodeStr : Json → Option Str
  | .str s => some s
  | _ => none

/-- Decode a JSON boolean. -/
def decodeBool : Json → Option Bool
  | .bool b => some b
  | _ => none

/-- Decode a JSON number. -/
def decodeNum : Json → Option ℚ
  | .num q => some q
  | _ => none

/-- Decode a JSON array of strings. -/
def decodeStrList : Json → Option (List Str)
  | .arr l => mapMOpt decodeStr l
  | _ => none

/-- Decode an optional field: an absent field is `none`, a present field must
decode. -/
def decodeOptField (fields : List (Str × Json)) (k : Str)
    (dec : Json → Option α) : Option (Option α) :=
  match getField fields k with
  | none => some none
  | some j => (dec j).map some

/-- Decode a stored default value from its serialized form. -/
def decodeJsPrim : Json → Option JsPrim
  | .null => some .nil
  | .bool b => some (.bool b)
  | .num q => some (.num (.fin q))
  | .str s => some (.str s)
  | _ => none

/-- Decode a dialect name. -/
def decodeDialect (s : Str) : Option SqlDialect :=
  dialectOrder.find? (fun d => dialectText d = s)

/-- Decode a referential action. -/
def decodeFkAction (s : Str) : Option FkAction :=
  [FkAction.cascade, .setNull, .setDefault, .restrict, .noAction].find?
    (fun a => fkActionText a = s)

/-- Decode a column type. -/
def decodeColumnType : Json → Option ColumnType
  | .obj fs =>
    ((getField fs "type".data).bind decodeStr).bind fun ty =>
    (decodeOptField fs "length".data decodeNum).bind fun len =>
    (decodeOptField fs "scale".data decodeNum).map fun sc =>
    { type := ty, length := len, scale := sc }
  | _ => none

/-- Decode a column. -/
def decodeColumn : Json → Option Column
  | .obj fs =>
    ((getField fs "name".data).bind decodeStr).bind fun nm =>
    ((getField fs "type".data).bind decodeColumnType).bind fun ty =>
    ((getField fs "nullable".data).bind decodeBool).bind fun nb =>
    ((getField fs "autoIncrement".data).bind decodeBool).bind fun ai =>
    (decodeOptField fs "default".data decodeJsPrim).map fun df =>
    { name := nm, type := ty, nullable := nb, autoIncrement := ai, default := df }
  | _ => none

/-- Decode an index. -/
def decodeIndex : Json → Option IndexDef
  | .obj fs =>
    ((getField fs "name".data).bind decodeStr).bind fun nm =>
    ((getField fs "type".data).bind decodeStr).bind fun ty =>
    ((getField fs "columns".data).bind decodeStrList).bind fun cols =>
    ((getField fs "unique".data).bind decodeBool).map fun u =>
    { name := nm, type := ty, columns := cols, unique := u }
  | _ => none

/-- Decode a foreign key. -/
def decodeForeignKey : Json → Option ForeignKey
  | .obj fs =>
    ((getField fs "name".data).bind decodeStr).bind fun nm =>
    ((getField fs "columns".data).bind decodeStrList).bind fun cols =>
    ((getField fs "referencedTable".data).bind decodeStr).bind fun rt =>
    ((getField fs "referencedColumns".data).bind decodeStrList).bind fun rc =>
    (decodeOptField fs "onUpdate".data (fun j => (decodeStr j).bind decodeFkAction)).bind fun ou =>
    (decodeOptField fs "onDelete".data (fun j => (decodeStr j).bind decodeFkAction)).map fun od =>
    { name := nm, columns := cols, referencedTable := rt,
      referencedColumns := rc, onUpdate := ou, onDelete := od }
  | _ => none

/-- Decode a table. -/
def decodeTable : Json → Option Table
  | .obj fs =>
    ((getField fs "name".data).bind decodeStr).bind fun nm =>
    ((getField fs "columns".data).bind fun j =>
      match j with
      | .arr l => mapMOpt decodeColumn l
      | _ => none).bind fun cols =>
    (decodeOptField fs "primaryKey".data decodeStrList).bind fun pk =>
    ((getField fs "uniqueKeys".data).bind fun j =>
      match j with
      | .arr l => mapMOpt decodeStrList l
      | _ => none).bind fun uks =>
    ((getField fs "indexes".data).bind fun j =>
      match j with
      | .arr l => mapMOpt decodeIndex l
      | _ => none).bind fun idxs =>
    ((getField fs "foreignKeys".data).bind fun j =>
      match j with
      | .arr l => mapMOpt decodeForeignKey l
      | _ => none).map fun fks =>
    { name := nm, columns := cols, primaryKey := pk, uniqueKeys := uks,
      indexes := idxs, foreignKeys := fks }
  | _ => none

/-- Deserialize a schema from its JSON form (the inverse direction of the
round-trip claim). -/
def fromJSON : Json → Option DatabaseSchema
  | .obj fs =>
    (((getField fs "dialect".data).bind decodeStr).bind decodeDialect).bind fun d =>
    ((getField fs "tables".data).bind fun j =>
      match j with
      | .arr l => mapMOpt decodeTable l
      | _ => none).bind fun ts =>
    ((getField fs "version".data).bind decodeStr).map fun v =>
    { dialect := d, tables := ts, version := v }
  | _ => none

/-- A stored default value is finite when it is not one of the two infinite
numbers (which serialize as `null`). -/
def finitePrim : JsPrim → Bool
  | .num .inf => false
  | .num .negInf => false
  | _ => true

/-- Does the default value of the column avoid the non-finite numbers? -/
def columnFinite (c : Column) : Bool :=
  match c.default with
  | some v => finitePrim v
  | none => true

/-- Does every default value of the schema avoid the non-finite numbers? -/
def schemaFiniteDefaults (s : DatabaseSchema) : Bool :=
  s.tables.all (fun t => t.columns.all columnFinite)

/-- Claim-side quote state for the clause splitter: outside any quoted span,
or inside a span opened by the recorded quote character. -/
inductive QuoteSt where
  | noQ
  | inQ (qc : Char)
deriving DecidableEq

/-- Claim-side quote transition: a quote character opens a span, the matching
character closes it, and every other character leaves the state unchanged. -/
def quoteStepSpec (q : QuoteSt) (c : Char) : QuoteSt :=
  match q with
  | .noQ => if c = dquote ∨ c = squote ∨ c = btick then .inQ c else .noQ
  | .inQ qc => if c = qc then .noQ else .inQ qc

/-- Claim-side depth transition: parens count only outside quoted spans. -/
def depthStepSpec (q : QuoteSt) (d : Int) (c : Char) : Int :=
  match q with
  | .noQ => if c = '(' then d + 1 else if c = ')' then d - 1 else d
  | .inQ _ => d

/-- Claim-side boundary test: a comma is a clause boundary exactly when the
paren depth is zero and the scanner is outside any quoted span. -/
def isBoundarySpec (q : QuoteSt) (d : Int) (c : Char) : Prop :=
  c = ',' ∧ d = 0 ∧ q = QuoteSt.noQ

instance (q : QuoteSt) (d : Int) (c : Char) : Decidable (isBoundarySpec q d c) :=
  inferInstanceAs (Decidable (_ ∧ _ ∧ _))

/-- Claim-side splitter: walk the body, cut exactly at boundary commas, and
drop a blank final piece. -/
def specSplitGo : Str → QuoteSt → Int → Str → List Str
  | [], _, _, cur => if (trimL cur.reverse).isEmpty then [] else [cur.reverse]
  | c :: rest, q, d, cur =>
    if isBoundarySpec q d c then
      cur.reverse :: specSplitGo rest (quoteStepSpec q c) (depthStepSpec q d c) []
    else
      specSplitGo rest (quoteStepSpec q c) (depthStepSpec q d c) (c :: cur)

/-- Claim-side splitter entry point. -/
def splitClausesSpec (body : Str) : List Str := specSplitGo body .noQ 0 []

/-- Claim-side confidence formula, written as the specification states it:
the maximal score over the scaled total (clipped to 1), and 0 when the total
score is 0. -/
def specConfidence (sql : Str) : ℚ :=
  if totalScoreOf sql = 0 then 0
  else min (maxScoreOf sql / max ((7 / 10) * totalScoreOf sql) 1) 1

/-- The names of the columns of a table. -/
def columnNames (t : Table) : List Str := t.columns.map (fun c => c.name)

/-- Claim-side referential invariant: every column name referenced by the
primary key, by a unique key, by an index or by the constrained columns of a
foreign key names a column of the table. -/
def tableRefsInvariant (t : Table) : Prop :=
  (∀ pk ∈ t.primaryKey.getD [], pk ∈ columnNames t) ∧
  (∀ u ∈ t.uniqueKeys, ∀ c ∈ u, c ∈ columnNames t) ∧
  (∀ i ∈ t.indexes, ∀ c ∈ i.columns, c ∈ columnNames t) ∧
  (∀ fk ∈ t.foreignKeys, ∀ c ∈ fk.columns, c ∈ columnNames t)

/-- Does the input show any scoring signal of the given dialect (a keyword, a
function, a quote marker, or a strong indicator)? -/
def hasSignal (sql : Str) (d : SqlDialect) : Bool :=
  (dialectKeywords d).any (fun p => includesL (normalizeDetect sql) (upStr p)) ||
  (dialectFunctions d).any (fun p => includesL (normalizeDetect sql) (upStr p)) ||
  (dialectQuotes d).any (fun p => includesL sql p) ||
  strongHit (normalizeDetect sql) d

theorem dropWhile_head_false {p : α → Bool} {l : List α} {c : α} {cs : List α}
    (h : l.dropWhile p = c :: cs) : p c = false := by
  induction l with
  | nil => simp [List.dropWhile] at h
  | cons a as ih =>
    rw [List.dropWhile_cons] at h
    by_cases hp : p a = true
    · rw [if_pos hp] at h
      exact ih h
    · rw [if_neg hp] at h
      cases h
      simpa using hp

theorem dropWhile_dropWhile {p : α → Bool} (l : List α) :
    (l.dropWhile p).dropWhile p = l.dropWhile p := by
  cases h : l.dropWhile p with
  | nil => simp
  | cons c cs => rw [List.dropWhile_cons, dropWhile_head_false h]; simp

theorem getLast?_dropWhile {p : α → Bool} {m : List α} {c : α} {cs : List α}
    (h : m.dropWhile p = c :: cs) : (c :: cs).getLast? = m.getLast? := by
  have h2 : m = m.takeWhile p ++ (c :: cs) := by
    rw [← h, List.takeWhile_append_dropWhile]
  cases hg : (c :: cs).getLast? with
  | none => simp at hg
  | some z =>
    rw [h2, List.getLast?_append, hg]
    simp [Option.or]

theorem trimL_idem (s : Str) : trimL (trimL s) = trimL s := by
  have hdrop : (trimL s).dropWhile jsWhitespace = trimL s := by
    unfold trimL
    cases hXr : ((s.dropWhile jsWhitespace).reverse.dropWhile jsWhitespace).reverse with
    | nil => simp
    | cons c cs =>
      have hX : (s.dropWhile jsWhitespace).reverse.dropWhile jsWhitespace
          = cs.reverse ++ [c] := by
        have := congrArg List.reverse hXr
        simpa using this
      have hlast : (cs.reverse ++ [c]).getLast?
          = (s.dropWhile jsWhitespace).reverse.getLast? := by
        cases hcc : cs.reverse ++ [c] with
        | nil => simp at hcc
        | cons d ds => rw [← hcc]; exact hcc ▸ getLast?_dropWhile (hcc ▸ hX)
      have hc : (s.dropWhile jsWhitespace).head? = some c := by
        rw [← List.getLast?_reverse, ← hlast, List.getLast?_concat]
      have hpc : jsWhitespace c = false := by
        cases hA : s.dropWhile jsWhitespace with
        | nil => rw [hA] at hc; simp at hc
        | cons a as =>
          rw [hA] at hc
          simp only [List.head?_cons, Option.some.injEq] at hc
          subst hc
          exact dropWhile_head_false hA
      rw [List.dropWhile_cons, hpc]
      simp
  -- with the left side stable, the right side is a repeated dropWhile
  show (((trimL s).dropWhile jsWhitespace).reverse.dropWhile jsWhitespace).reverse
      = trimL s
  rw [hdrop]
  have : (trimL s).reverse.dropWhile jsWhitespace = (trimL s).reverse := by
    unfold trimL
    rw [List.reverse_reverse]
    exact dropWhile_dropWhile _
  rw [this, List.reverse_reverse]

/-- C9: for every dialect argument and every option record, blank SQL makes
`parseDdl` fail with the empty-SQL error; the failure is decided before any
dialect detection or table-level work and does not depend on strict mode. -/
theorem C9_emptySql (sql : Str) (dialect : Option SqlDialect)
    (options : ParseOptionsIn) (h : (trimL sql).isEmpty = true) :
    parseDdl sql dialect options = .error .emptySql := by
  unfold parseDdl
  rw [if_pos h]

/-- Witness for C9 at a concrete all-whitespace input with no dialect. -/
theorem C9_emptySql_witness :
    (trimL "  ".data).isEmpty = true ∧
    parseDdl "  ".data none {} = .error .emptySql :=
  ⟨by decide, C9_emptySql "  ".data none {} (by decide)⟩

theorem scoreOf_eq_zero {sql : Str} {d : SqlDialect}
    (h : hasSignal sql d = false) : scoreOf sql d = 0 := by
  have h4 := h
  simp only [hasSignal, Bool.or_eq_false_iff] at h4
  obtain ⟨⟨⟨h1, h2⟩, h3⟩, h5⟩ := h4
  have k1 : (dialectKeywords d).filter
      (fun p => includesL (normalizeDetect sql) (upStr p)) = [] :=
    List.filter_eq_nil_iff.mpr (List.any_eq_false.mp h1)
  have k2 : (dialectFunctions d).filter
      (fun p => includesL (normalizeDetect sql) (upStr p)) = [] :=
    List.filter_eq_nil_iff.mpr (List.any_eq_false.mp h2)
  have k3 : (dialectQuotes d).filter (fun p => includesL sql p) = [] :=
    List.filter_eq_nil_iff.mpr (List.any_eq_false.mp h3)
  simp [scoreOf, countHits, quoteHits, k1, k2, k3, h5]

/-- C6: an input that contains only the dialect-neutral keywords (and no
dialect signature at all: no keyword, function, quote marker or strong
indicator of any dialect) is reported as `unknown` with confidence 0, in
particular below 0.4. -/
theorem C6_neutralKeywords (sql : Str)
    (_hcreate : includesL (normalizeDetect sql) "CREATE TABLE".data = true)
    (_hpk : includesL (normalizeDetect sql) "PRIMARY KEY".data = true)
    (_hnn : includesL (normalizeDetect sql) "NOT NULL".data = true)
    (h0 : ∀ d, hasSignal sql d = false) :
    (detectDialect sql).dialect = none ∧
    (detectDialect sql).confidence < 2 / 5 := by
  have hz : ∀ d, scoreOf sql d = 0 := fun d => scoreOf_eq_zero (h0 d)
  have ht : totalScoreOf sql = 0 := by simp [totalScoreOf, hz]
  have hraw : rawConfidenceOf sql = 0 := by
    unfold rawConfidenceOf
    rw [ht]
    norm_num
  constructor
  · show (if rawConfidenceOf sql > 3 / 10 then
        match winnerOf sql with
        | some d => some d
        | none => none
      else none) = none
    rw [hraw]
    norm_num
  · show round2 (rawConfidenceOf sql) < 2 / 5
    rw [hraw]
    unfold round2
    norm_num

/-- Witness for C6 at a concrete neutral DDL input. -/
theorem C6_neutralKeywords_witness :
    (includesL (normalizeDetect "CREATE TABLE A (ID INT PRIMARY KEY, B INT NOT NULL)".data)
        "CREATE TABLE".data = true) ∧
    (detectDialect "CREATE TABLE A (ID INT PRIMARY KEY, B INT NOT NULL)".data).dialect
        = none ∧
    (detectDialect "CREATE TABLE A (ID INT PRIMARY KEY, B INT NOT NULL)".data).confidence
        < 2 / 5 :=
  ⟨by decide,
   C6_neutralKeywords "CREATE TABLE A (ID INT PRIMARY KEY, B INT NOT NULL)".data
     (by decide) (by decide) (by decide) (by intro d; cases d <;> decide)⟩

theorem scoreOf_nonneg (sql : Str) (d : SqlDialect) : 0 ≤ scoreOf sql d := by
  unfold scoreOf
  have n1 : (0 : ℚ) ≤ (countHits (normalizeDetect sql) (dialectKeywords d) : ℚ) :=
    Nat.cast_nonneg _
  have n2 : (0 : ℚ) ≤ (4 / 5) * (countHits (normalizeDetect sql) (dialectFunctions d) : ℚ) :=
    mul_nonneg (by norm_num) (Nat.cast_nonneg _)
  have n3 : (0 : ℚ) ≤ (3 / 10) * (quoteHits sql (dialectQuotes d) : ℚ) :=
    mul_nonneg (by norm_num) (Nat.cast_nonneg _)
  have n4 : (0 : ℚ) ≤ (if strongHit (normalizeDetect sql) d then (2 : ℚ) else 0) := by
    split <;> norm_num
  linarith

theorem totalScoreOf_nonneg (sql : Str) : 0 ≤ totalScoreOf sql := by
  unfold totalScoreOf
  have := scoreOf_nonneg sql .mysql
  have := scoreOf_nonneg sql .postgres
  have := scoreOf_nonneg sql .mssql
  have := scoreOf_nonneg sql .sqlite
  have := scoreOf_nonneg sql .oracle
  linarith

theorem rawConf_eq_spec (sql : Str) :
    rawConfidenceOf sql = specConfidence sql := by
  unfold rawConfidenceOf specConfidence
  rcases eq_or_lt_of_le (totalScoreOf_nonneg sql) with h | h
  · rw [if_neg (by rw [← h]; exact lt_irrefl 0), if_pos h.symm]
  · rw [if_pos h, if_neg (ne_of_gt h), mul_comm]

theorem maxScore_mem (sql : Str) :
    ∃ d, scoreOf sql d = maxScoreOf sql ∧ d ∈ dialectOrder := by
  unfold maxScoreOf
  rcases max_choice (scoreOf sql .mysql)
      (max (scoreOf sql .postgres)
        (max (scoreOf sql .mssql) (max (scoreOf sql .sqlite) (scoreOf sql .oracle)))) with h | h
  · exact ⟨.mysql, h.symm, by simp [dialectOrder]⟩
  · rw [h]
    rcases max_choice (scoreOf sql .postgres)
        (max (scoreOf sql .mssql) (max (scoreOf sql .sqlite) (scoreOf sql .oracle))) with h2 | h2
    · exact ⟨.postgres, h2.symm, by simp [dialectOrder]⟩
    · rw [h2]
      rcases max_choice (scoreOf sql .mssql)
          (max (scoreOf sql .sqlite) (scoreOf sql .oracle)) with h3 | h3
      · exact ⟨.mssql, h3.symm, by simp [dialectOrder]⟩
      · rw [h3]
        rcases max_choice (scoreOf sql .sqlite) (scoreOf sql .oracle) with h4 | h4
        · exact ⟨.sqlite, h4.symm, by simp [dialectOrder]⟩
        · rw [h4]
          exact ⟨.oracle, rfl, by simp [dialectOrder]⟩

theorem winnerOf_some (sql : Str) :
    ∃ d, winnerOf sql = some d ∧ scoreOf sql d = maxScoreOf sql := by
  obtain ⟨d, hd, hmem⟩ := maxScore_mem sql
  have hsome : (winnerOf sql).isSome := by
    apply List.find?_isSome.mpr
    exact ⟨d, hmem, by simp [hd]⟩
  obtain ⟨d2, hd2⟩ := Option.isSome_iff_exists.mp hsome
  refine ⟨d2, hd2, ?_⟩
  have := List.find?_some hd2
  simpa using this

theorem scoreOf_le_max (sql : Str) (d : SqlDialect) :
    scoreOf sql d ≤ maxScoreOf sql := by
  cases d <;> simp [maxScoreOf, le_max_iff]

/-- C5: `detectDialect` reports as confidence the two-decimal rounding of the
specified formula (the maximal score over the scaled total, clipped to 1, and
0 when the total is 0), reports `unknown` exactly when that unrounded value
is at most 0.3, and otherwise reports a maximal-scoring dialect. -/
theorem C5_confidenceFormula (sql : Str) :
    (detectDialect sql).confidence = round2 (specConfidence sql) ∧
    ((detectDialect sql).dialect = none ↔ specConfidence sql ≤ 3 / 10) ∧
    (3 / 10 < specConfidence sql →
      ∃ d, (detectDialect sql).dialect = some d ∧
        scoreOf sql d = maxScoreOf sql ∧
        ∀ d2, scoreOf sql d2 ≤ maxScoreOf sql) := by
  have heq : rawConfidenceOf sql = specConfidence sql := rawConf_eq_spec sql
  obtain ⟨w, hw, hwmax⟩ := winnerOf_some sql
  refine ⟨?_, ?_, ?_⟩
  · show round2 (rawConfidenceOf sql) = round2 (specConfidence sql)
    rw [heq]
  · by_cases hc : rawConfidenceOf sql > 3 / 10
    · have hd : (detectDialect sql).dialect = some w := by
        show (if rawConfidenceOf sql > 3 / 10 then
            match winnerOf sql with
            | some d => some d
            | none => none
          else none) = some w
        rw [if_pos hc, hw]
      rw [hd]
      exact iff_of_false (by simp) (by rw [← heq]; exact not_le.mpr hc)
    · have hd : (detectDialect sql).dialect = none := by
        show (if rawConfidenceOf sql > 3 / 10 then
            match winnerOf sql with
            | some d => some d
            | none => none
          else none) = none
        rw [if_neg hc]
      rw [hd]
      exact iff_of_true rfl (by rw [← heq]; exact not_lt.mp (by simpa using hc))
  · intro h3
    have hc : rawConfidenceOf sql > 3 / 10 := by rw [heq]; exact h3
    refine ⟨w, ?_, hwmax, fun d2 => scoreOf_le_max sql d2⟩
    show (if rawConfidenceOf sql > 3 / 10 then
        match winnerOf sql with
        | some d => some d
        | none => none
      else none) = some w
    rw [if_pos hc, hw]

/-- Witness for C5 at a concrete MySQL-flavoured input. -/
theorem C5_confidenceFormula_witness :
    (detectDialect "CREATE TABLE T (A INT) ENGINE=InnoDB".data).confidence
      = round2 (specConfidence "CREATE TABLE T (A INT) ENGINE=InnoDB".data) ∧
    ((detectDialect "CREATE TABLE T (A INT) ENGINE=InnoDB".data).dialect = none ↔
      specConfidence "CREATE TABLE T (A INT) ENGINE=InnoDB".data ≤ 3 / 10) :=
  ⟨(C5_confidenceFormula "CREATE TABLE T (A INT) ENGINE=InnoDB".data).1,
   (C5_confidenceFormula "CREATE TABLE T (A INT) ENGINE=InnoDB".data).2.1⟩

theorem splitGo_spec (rest : Str) :
    ∀ (stmts : List Str) (cur : Str) (d : Int) (b : Bool) (sc : Char) (q : QuoteSt),
    ((b = false ∧ q = QuoteSt.noQ) ∨ (b = true ∧ q = QuoteSt.inQ sc)) →
    finishSplit (rest.foldl splitStep ⟨stmts, cur, d, b, sc⟩)
      = stmts ++ specSplitGo rest q d cur := by
  induction rest with
  | nil =>
    intro stmts cur d b sc q _
    by_cases he : (trimL cur.reverse).isEmpty
    · simp [finishSplit, specSplitGo, he]
    · simp [finishSplit, specSplitGo, he]
  | cons c cs ih =>
    intro stmts cur d b sc q hq
    rw [List.foldl_cons]
    rcases hq with ⟨hb, hqq⟩ | ⟨hb, hqq⟩
    · subst hb; subst hqq
      by_cases h1 : c = dquote ∨ c = squote ∨ c = btick
      · -- a quote character opens a span
        have hstep : splitStep ⟨stmts, cur, d, false, sc⟩ c
            = ⟨stmts, c :: cur, d, true, c⟩ := by
          unfold splitStep
          rw [if_pos ⟨by simp, h1⟩]
        have hspec : specSplitGo (c :: cs) QuoteSt.noQ d cur
            = specSplitGo cs (QuoteSt.inQ c) d (c :: cur) := by
          have hnb : ¬isBoundarySpec QuoteSt.noQ d c := by
            rintro ⟨rfl, -, -⟩
            rcases h1 with h | h | h <;> exact absurd h (by decide)
          have hqs : quoteStepSpec QuoteSt.noQ c = QuoteSt.inQ c := by
            simp [quoteStepSpec, h1]
          have hds : depthStepSpec QuoteSt.noQ d c = d := by
            have hop : ¬(c = '(') := by
              rintro rfl; rcases h1 with h | h | h <;> exact absurd h (by decide)
            have hcl : ¬(c = ')') := by
              rintro rfl; rcases h1 with h | h | h <;> exact absurd h (by decide)
            simp [depthStepSpec, hop, hcl]
          rw [specSplitGo, if_neg hnb, hqs, hds]
        rw [hstep, hspec]
        exact ih stmts (c :: cur) d true c (QuoteSt.inQ c) (Or.inr ⟨rfl, rfl⟩)
      · by_cases h2 : c = '('
        · subst h2
          have hstep : splitStep ⟨stmts, cur, d, false, sc⟩ '('
              = ⟨stmts, '(' :: cur, d + 1, false, sc⟩ := by
            unfold splitStep
            rw [if_neg (by rintro ⟨-, h⟩; rcases h with h | h | h <;> revert h <;> decide),
                if_neg (by rintro ⟨h, -⟩; simp at h), if_pos (by simp), if_pos rfl]
          have hspec : specSplitGo ('(' :: cs) QuoteSt.noQ d cur
              = specSplitGo cs QuoteSt.noQ (d + 1) ('(' :: cur) := by
            rw [specSplitGo, if_neg (by rintro ⟨h, -, -⟩; revert h; decide)]
            rfl
          rw [hstep, hspec]
          exact ih stmts ('(' :: cur) (d + 1) false sc QuoteSt.noQ (Or.inl ⟨rfl, rfl⟩)
        · by_cases h3 : c = ')'
          · subst h3
            have hstep : splitStep ⟨stmts, cur, d, false, sc⟩ ')'
                = ⟨stmts, ')' :: cur, d - 1, false, sc⟩ := by
              unfold splitStep
              rw [if_neg (by rintro ⟨-, h⟩; rcases h with h | h | h <;> revert h <;> decide),
                  if_neg (by rintro ⟨h, -⟩; simp at h), if_pos (by simp),
                  if_neg (by decide), if_pos rfl]
            have hspec : specSplitGo (')' :: cs) QuoteSt.noQ d cur
                = specSplitGo cs QuoteSt.noQ (d - 1) (')' :: cur) := by
              rw [specSplitGo, if_neg (by rintro ⟨h, -, -⟩; revert h; decide)]
              rfl
            rw [hstep, hspec]
            exact ih stmts (')' :: cur) (d - 1) false sc QuoteSt.noQ (Or.inl ⟨rfl, rfl⟩)
          · by_cases h4 : c = ','
            · subst h4
              by_cases h5 : d = 0
              · subst h5
                have hstep : splitStep ⟨stmts, cur, 0, false, sc⟩ ','
                    = ⟨stmts ++ [cur.reverse], [], 0, false, sc⟩ := by
                  unfold splitStep
                  rw [if_neg (by rintro ⟨-, h⟩; rcases h with h | h | h <;> revert h <;> decide),
                      if_neg (by rintro ⟨h, -⟩; simp at h), if_pos (by simp),
                      if_neg (by decide), if_neg (by decide), if_pos ⟨rfl, rfl⟩]
                have hspec : specSplitGo (',' :: cs) QuoteSt.noQ 0 cur
                    = cur.reverse :: specSplitGo cs QuoteSt.noQ 0 [] := by
                  rw [specSplitGo, if_pos ⟨rfl, rfl, rfl⟩]
                  rfl
                rw [hstep, hspec,
                  ih (stmts ++ [cur.reverse]) [] 0 false sc QuoteSt.noQ (Or.inl ⟨rfl, rfl⟩),
                  List.append_assoc]
                rfl
              · have hstep : splitStep ⟨stmts, cur, d, false, sc⟩ ','
                    = ⟨stmts, ',' :: cur, d, false, sc⟩ := by
                  unfold splitStep
                  rw [if_neg (by rintro ⟨-, h⟩; rcases h with h | h | h <;> revert h <;> decide),
                      if_neg (by rintro ⟨h, -⟩; simp at h), if_pos (by simp),
                      if_neg (by decide), if_neg (by decide),
                      if_neg (by rintro ⟨-, h⟩; exact h5 h)]
                have hspec : specSplitGo (',' :: cs) QuoteSt.noQ d cur
                    = specSplitGo cs QuoteSt.noQ d (',' :: cur) := by
                  rw [specSplitGo, if_neg (by rintro ⟨-, h, -⟩; exact h5 h)]
                  rfl
                rw [hstep, hspec]
                exact ih stmts (',' :: cur) d false sc QuoteSt.noQ (Or.inl ⟨rfl, rfl⟩)
            · -- an ordinary character
              have hstep : splitStep ⟨stmts, cur, d, false, sc⟩ c
                  = ⟨stmts, c :: cur, d, false, sc⟩ := by
                unfold splitStep
                rw [if_neg (by rintro ⟨-, h⟩; exact h1 h),
                    if_neg (by rintro ⟨h, -⟩; simp at h), if_pos (by simp),
                    if_neg h2, if_neg h3, if_neg (by rintro ⟨h, -⟩; exact h4 h)]
              have hspec : specSplitGo (c :: cs) QuoteSt.noQ d cur
                  = specSplitGo cs QuoteSt.noQ d (c :: cur) := by
                have hqs : quoteStepSpec QuoteSt.noQ c = QuoteSt.noQ := by
                  simp [quoteStepSpec, h1]
                have hds : depthStepSpec QuoteSt.noQ d c = d := by
                  simp [depthStepSpec, h2, h3]
                rw [specSplitGo, if_neg (by rintro ⟨h, -, -⟩; exact h4 h), hqs, hds]
              rw [hstep, hspec]
              exact ih stmts (c :: cur) d false sc QuoteSt.noQ (Or.inl ⟨rfl, rfl⟩)
    · subst hb; subst hqq
      by_cases h1 : c = sc
      · subst h1
        have hstep : splitStep ⟨stmts, cur, d, true, c⟩ c
            = ⟨stmts, c :: cur, d, false, nulChar⟩ := by
          unfold splitStep
          rw [if_neg (by rintro ⟨h, -⟩; simp at h), if_pos ⟨rfl, rfl⟩]
        have hspec : specSplitGo (c :: cs) (QuoteSt.inQ c) d cur
            = specSplitGo cs QuoteSt.noQ d (c :: cur) := by
          rw [specSplitGo, if_neg (by rintro ⟨-, -, h⟩; exact QuoteSt.noConfusion h)]
          simp [quoteStepSpec, depthStepSpec]
        rw [hstep, hspec]
        exact ih stmts (c :: cur) d false nulChar QuoteSt.noQ (Or.inl ⟨rfl, rfl⟩)
      · have hstep : splitStep ⟨stmts, cur, d, true, sc⟩ c
            = ⟨stmts, c :: cur, d, true, sc⟩ := by
          unfold splitStep
          rw [if_neg (by rintro ⟨h, -⟩; simp at h),
              if_neg (by rintro ⟨-, h⟩; exact h1 h), if_neg (by simp)]
        have hspec : specSplitGo (c :: cs) (QuoteSt.inQ sc) d cur
            = specSplitGo cs (QuoteSt.inQ sc) d (c :: cur) := by
          rw [specSplitGo, if_neg (by rintro ⟨-, -, h⟩; exact QuoteSt.noConfusion h)]
          simp [quoteStepSpec, depthStepSpec, h1]
        rw [hstep, hspec]
        exact ih stmts (c :: cur) d true sc (QuoteSt.inQ sc) (Or.inr ⟨rfl, rfl⟩)

set_option maxRecDepth 100000 in
/-- C8: the clause splitter cuts exactly at the commas that sit at paren
depth 0 outside any quoted span (stated as equality with the claim-side state
machine built from that boundary rule), and in particular a comma inside
`VARCHAR(10,2)`, inside three levels of paren nesting, or inside a quoted
literal never starts a new clause. -/
theorem C8_splitBoundaries :
    (∀ body : Str, splitTableStatements body = splitClausesSpec body) ∧
    splitTableStatements "a VARCHAR(10,2), b DECIMAL(8,3)".data
      = ["a VARCHAR(10,2)".data, " b DECIMAL(8,3)".data] ∧
    splitTableStatements
        ("a T(((x,y),z)), b U(".data ++ [squote] ++ "p,q".data ++ [squote] ++ "), c I".data)
      = ["a T(((x,y),z))".data,
         " b U(".data ++ [squote] ++ "p,q".data ++ [squote] ++ ")".data,
         " c I".data] := by
  refine ⟨?_, by decide, by decide⟩
  intro body
  unfold splitTableStatements splitClausesSpec
  rw [splitGo_spec body [] [] 0 false nulChar QuoteSt.noQ (Or.inl ⟨rfl, rfl⟩)]
  simp

theorem processClause_pk {tn : Str} {d : SqlDialect} {o : ValidatedParseOptions}
    {st st2 : TableState} {c : Str}
    (hc : startsWithL "PRIMARY KEY".data (upStr (trimL c)) = false)
    (h : processClause tn d o st c = .ok st2) :
    st2.primaryKey = st.primaryKey := by
  unfold processClause at h
  by_cases h1 : isColumnDefinition (trimL c) = true
  · rw [if_pos h1] at h
    cases hpc : parseColumnDefinition (trimL c) d with
    | error e => rw [hpc] at h; cases h
    | ok col =>
      rw [hpc] at h
      cases hif : scanMatch matchInlineFkAt (trimL c) with
      | some v =>
        obtain ⟨tbl, refCol, onDel, onUpd⟩ := v
        rw [hif] at h
        cases h
        rfl
      | none =>
        rw [hif] at h
        cases h
        rfl
  · rw [if_neg h1, if_neg (by simp [hc])] at h
    by_cases h3 : startsWithL "UNIQUE".data (upStr (trimL c)) = true
    · rw [if_pos h3] at h; cases h; rfl
    · rw [if_neg (by simp [h3])] at h
      by_cases h4 : startsWithL "FOREIGN KEY".data (upStr (trimL c)) = true
      · rw [if_pos h4] at h
        cases hfk : parseForeignKey (trimL c) with
        | error e => rw [hfk] at h; cases h
        | ok fk => rw [hfk] at h; cases h; rfl
      · rw [if_neg (by simp [h4])] at h
        by_cases h5 : (o.includeIndexes = true ∧ isIndexDefinition (trimL c) = true)
        · rw [if_pos h5] at h
          cases hidx : parseIndexDefinition (trimL c) with
          | error e => rw [hidx] at h; cases h
          | ok idx => rw [hidx] at h; cases h; rfl
        · rw [if_neg h5] at h; cases h; rfl

theorem processClauses_pk {tn : Str} {d : SqlDialect} {o : ValidatedParseOptions}
    {cs : List Str} :
    ∀ {st st2 : TableState},
    (∀ c ∈ cs, startsWithL "PRIMARY KEY".data (upStr (trimL c)) = false) →
    processClauses tn d o cs st = .ok st2 → st2.primaryKey = st.primaryKey := by
  induction cs with
  | nil =>
    intro st st2 _ h
    unfold processClauses at h
    cases h
    rfl
  | cons c rest ih =>
    intro st st2 hall h
    unfold processClauses at h
    cases hpc : processClause tn d o st c with
    | error e => rw [hpc] at h; cases h
    | ok stm =>
      rw [hpc] at h
      have h1 := processClause_pk (hall c (by simp)) hpc
      have h2 := ih (fun x hx => hall x (by simp [hx])) h
      rw [h2, h1]

set_option maxRecDepth 400000 in
/-- C2: when a table body declares no table-level `PRIMARY KEY` clause, the
assembled primary key is exactly the implicit promotion: the single candidate
column (auto-increment, or non-nullable with `id` in its lowercased name)
when exactly one exists, and absent otherwise; and the concrete MySQL example
of the specification parses to the expected schema. -/
theorem C2_implicitPrimaryKey :
    (∀ (tn body : Str) (d : SqlDialect) (o : ValidatedParseOptions) (t : Table),
      (∀ c ∈ splitTableStatements body,
        startsWithL "PRIMARY KEY".data (upStr (trimL c)) = false) →
      parseTableDefinition tn body d o = .ok t →
      t.primaryKey = (match t.columns.filter pkCandidate with
                      | [c] => some [c.name]
                      | _ => none)) ∧
    parseDdl "CREATE TABLE users (id INT AUTO_INCREMENT PRIMARY KEY, name VARCHAR(50));".data
        (some .mysql) {} = .ok
      { dialect := .mysql
        tables := [{ name := "users".data
                     columns :=
                       [{ name := "id".data
                          type := { type := "INT".data, length := none, scale := none }
                          nullable := true
                          autoIncrement := true
                          default := none },
                        { name := "name".data
                          type := { type := "VARCHAR".data, length := some 50, scale := none }
                          nullable := true
                          autoIncrement := false
                          default := none }]
                     primaryKey := some ["id".data]
                     uniqueKeys := []
                     indexes := []
                     foreignKeys := [] }]
        version := "1.0".data } := by
  constructor
  · intro tn body d o t hall hok
    unfold parseTableDefinition at hok
    cases hps : processClauses tn d o (splitTableStatements body) initialTableState with
    | error e => rw [hps] at hok; cases hok
    | ok st =>
      rw [hps] at hok
      have hpk : st.primaryKey = [] := processClauses_pk hall hps
      cases hok
      show (if (if st.primaryKey.length = 0 then inferPrimaryKey st.columns
                else st.primaryKey).length > 0 then
          some (if st.primaryKey.length = 0 then inferPrimaryKey st.columns
                else st.primaryKey)
        else none)
        = (match st.columns.filter pkCandidate with
           | [c] => some [c.name]
           | _ => none)
      rw [hpk]
      unfold inferPrimaryKey
      cases hf : st.columns.filter pkCandidate with
      | nil => simp
      | cons c1 cr =>
        cases cr with
        | nil => simp
        | cons c2 cr2 => simp
  · rfl

set_option maxRecDepth 400000 in
/-- Witness for the quantified part of C2 at a concrete body with no
table-level primary-key clause and exactly one candidate column. -/
theorem C2_implicitPrimaryKey_witness :
    parseTableDefinition "t".data "uid INT NOT NULL, note VARCHAR(9)".data .mysql
        (mergeOptions {}) = .ok
      { name := "t".data
        columns :=
          [{ name := "uid".data
             type := { type := "INT".data, length := none, scale := none }
             nullable := false
             autoIncrement := false
             default := none },
           { name := "note".data
             type := { type := "VARCHAR".data, length := some 9, scale := none }
             nullable := true
             autoIncrement := false
             default := none }]
        primaryKey := some ["uid".data]
        uniqueKeys := []
        indexes := []
        foreignKeys := [] } ∧
    ({ name := "t".data
       columns :=
         [{ name := "uid".data
            type := { type := "INT".data, length := none, scale := none }
            nullable := false
            autoIncrement := false
            default := none },
          { name := "note".data
            type := { type := "VARCHAR".data, length := some 9, scale := none }
            nullable := true
            autoIncrement := false
            default := none }]
       primaryKey := some ["uid".data]
       uniqueKeys := []
       indexes := []
       foreignKeys := [] } : Table).primaryKey
      = (match ({ name := "t".data
                  columns :=
                    [{ name := "uid".data
                       type := { type := "INT".data, length := none, scale := none }
                       nullable := false
                       autoIncrement := false
                       default := none },
                     { name := "note".data
                       type := { type := "VARCHAR".data, length := some 9, scale := none }
                       nullable := true
                       autoIncrement := false
                       default := none }]
                  primaryKey := some ["uid".data]
                  uniqueKeys := []
                  indexes := []
                  foreignKeys := [] } : Table).columns.filter pkCandidate with
         | [c] => some [c.name]
         | _ => none) :=
  ⟨by rfl,
   C2_implicitPrimaryKey.1 "t".data "uid INT NOT NULL, note VARCHAR(9)".data .mysql
     (mergeOptions {}) _ (by decide) (by rfl)⟩

theorem processClause_opts (tn : Str) (d : SqlDialect)
    {p q : ValidatedParseOptions} (h : p.includeIndexes = q.includeIndexes)
    (st : TableState) (c : Str) :
    processClause tn d p st c = processClause tn d q st c := by
  unfold processClause
  rw [h]

theorem processClauses_opts (tn : Str) (d : SqlDialect)
    {p q : ValidatedParseOptions} (h : p.includeIndexes = q.includeIndexes)
    (cs : List Str) :
    ∀ st, processClauses tn d p cs st = processClauses tn d q cs st := by
  induction cs with
  | nil => intro st; rfl
  | cons c rest ih =>
    intro st
    unfold processClauses
    rw [processClause_opts tn d h st c]
    cases processClause tn d q st c with
    | error e => rfl
    | ok st2 => exact ih st2

theorem parseTableDefinition_opts (tn body : Str) (d : SqlDialect)
    {p q : ValidatedParseOptions} (h : p.includeIndexes = q.includeIndexes) :
    parseTableDefinition tn body d p = parseTableDefinition tn body d q := by
  unfold parseTableDefinition
  rw [processClauses_opts tn d h]

theorem parseTableStatementsGo_opts (d : SqlDialect)
    {p q : ValidatedParseOptions} (hi : p.includeIndexes = q.includeIndexes)
    (hs : p.strict = q.strict) :
    ∀ (fuel : Nat) (rest : Str),
    parseTableStatementsGo d p fuel rest = parseTableStatementsGo d q fuel rest := by
  intro fuel
  induction fuel with
  | zero => intro rest; rfl
  | succ n ih =>
    intro rest
    unfold parseTableStatementsGo
    cases hh : findNextHeader rest with
    | none => simp only [hh]
    | some pr =>
      obtain ⟨rawName, afterHeader⟩ := pr
      simp only [hh]
      cases hb : extractBody afterHeader with
      | none => simp only [hb]; exact ih afterHeader
      | some body =>
        simp only [hb, parseTableDefinition_opts (cleanIdentifier rawName) body d hi,
          ih afterHeader, hs]

theorem go_strict_err_of_nil {d : SqlDialect} {v : ValidatedParseOptions} :
    ∀ (fuel : Nat) (rest : Str),
    parseTableStatementsGo d { v with strict := false } fuel rest = .ok [] →
    parseTableStatementsGo d { v with strict := true } fuel rest = .ok [] ∨
    ∃ e, parseTableStatementsGo d { v with strict := true } fuel rest = .error e := by
  intro fuel
  induction fuel with
  | zero => intro rest _; left; rfl
  | succ n ih =>
    intro rest h
    unfold parseTableStatementsGo at h ⊢
    cases hh : findNextHeader rest with
    | none => simp only [hh] at h ⊢; left; trivial
    | some pr =>
      obtain ⟨rawName, afterHeader⟩ := pr
      simp only [hh] at h ⊢
      cases hb : extractBody afterHeader with
      | none =>
        simp only [hb] at h ⊢
        exact ih afterHeader h
      | some body =>
        simp only [hb] at h ⊢
        rw [parseTableDefinition_opts (cleanIdentifier rawName) body d
          (p := { v with strict := false }) (q := { v with strict := true }) rfl] at h
        cases ht : parseTableDefinition (cleanIdentifier rawName) body d
            { v with strict := true } with
        | ok table =>
          simp only [ht] at h
          cases hrec : parseTableStatementsGo d { v with strict := false } n afterHeader with
          | ok ts => simp only [hrec] at h; simp at h
          | error e => simp only [hrec] at h; simp at h
        | error e =>
          simp only [ht] at h ⊢
          right
          exact ⟨.tableFail (cleanIdentifier rawName) e, by simp⟩

theorem parseDdl_some (sql : Str) (d : SqlDialect) (o : ParseOptionsIn)
    (h : (trimL sql).isEmpty = false) :
    parseDdl sql (some d) o
      = match parseTableStatements (cleanSql sql) d (mergeOptions o) with
        | .error e => .error e
        | .ok tables =>
          if (mergeOptions o).strict ∧ tables.length = 0 ∧
              containsCreateTable (cleanSql sql) then
            .error .strictModeParse
          else .ok { dialect := d, tables := tables, version := "1.0".data } := by
  unfold parseDdl
  rw [if_neg (by simp [h])]

/-- C3: for any input whose cleaned SQL still contains a `CREATE TABLE`
token but from which the table scanner produces zero tables, non-strict
`parseDdl` returns a schema with an empty table list, while strict
`parseDdl` on the same input raises an error. -/
theorem C3_strictEmpty (sql : Str) (d : SqlDialect) (o : ParseOptionsIn)
    (hne : (trimL sql).isEmpty = false)
    (hct : containsCreateTable (cleanSql sql) = true)
    (hnil : parseTableStatements (cleanSql sql) d
        (mergeOptions { o with strict := some false }) = .ok []) :
    parseDdl sql (some d) { o with strict := some false }
      = .ok { dialect := d, tables := [], version := "1.0".data } ∧
    ∃ e, parseDdl sql (some d) { o with strict := some true } = .error e := by
  constructor
  · rw [parseDdl_some sql d { o with strict := some false } hne]
    simp only [hnil]
    rw [if_neg (by simp [mergeOptions])]
  · have htr := go_strict_err_of_nil (d := d)
      (v := mergeOptions { o with strict := some false })
      ((cleanSql sql).length + 1) (cleanSql sql) hnil
    rw [parseDdl_some sql d { o with strict := some true } hne]
    rcases htr with hok | ⟨e, herr⟩
    · simp only [show parseTableStatements (cleanSql sql) d
          (mergeOptions { o with strict := some true }) = .ok [] from hok]
      refine ⟨.strictModeParse, ?_⟩
      rw [if_pos ⟨by simp [mergeOptions], rfl, hct⟩]
    · simp only [show parseTableStatements (cleanSql sql) d
          (mergeOptions { o with strict := some true }) = .error e from herr]
      exact ⟨e, rfl⟩

set_option maxRecDepth 400000 in
/-- Witness for C3 at the concrete unterminated header of the
specification. -/
theorem C3_strictEmpty_witness :
    ((trimL "CREATE TABLE invalid (".data).isEmpty = false ∧
     containsCreateTable (cleanSql "CREATE TABLE invalid (".data) = true ∧
     parseTableStatements (cleanSql "CREATE TABLE invalid (".data) .mysql
       (mergeOptions { ({} : ParseOptionsIn) with strict := some false }) = .ok []) ∧
    parseDdl "CREATE TABLE invalid (".data (some .mysql)
        { ({} : ParseOptionsIn) with strict := some false }
      = .ok { dialect := .mysql, tables := [], version := "1.0".data } ∧
    ∃ e, parseDdl "CREATE TABLE invalid (".data (some .mysql)
        { ({} : ParseOptionsIn) with strict := some true } = .error e :=
  ⟨⟨by decide, by decide, by rfl⟩,
   C3_strictEmpty "CREATE TABLE invalid (".data .mysql {}
     (by decide) (by decide) (by rfl)⟩

set_option maxRecDepth 400000 in
/-- C4 counterexample: a table-level `PRIMARY KEY (b)` clause is copied into
the schema without checking that `b` names a column, so the parsed table
violates the claimed referential invariant. -/
theorem C4_cex :
    parseDdl "CREATE TABLE t (a INT, PRIMARY KEY (b))".data (some .mysql) {}
      = .ok
      { dialect := .mysql
        tables := [{ name := "t".data
                     columns := [{ name := "a".data
                                   type := { type := "INT".data, length := none, scale := none }
                                   nullable := true
                                   autoIncrement := false
                                   default := none }]
                     primaryKey := some ["b".data]
                     uniqueKeys := []
                     indexes := []
                     foreignKeys := [] }]
        version := "1.0".data } ∧
    ¬tableRefsInvariant
      { name := "t".data
        columns := [{ name := "a".data
                      type := { type := "INT".data, length := none, scale := none }
                      nullable := true
                      autoIncrement := false
                      default := none }]
        primaryKey := some ["b".data]
        uniqueKeys := []
        indexes := []
        foreignKeys := [] } := by
  constructor
  · rfl
  · intro hinv
    have := hinv.1 "b".data (by decide)
    revert this
    decide

theorem processClause_colDef {tn : Str} {d : SqlDialect} {o : ValidatedParseOptions}
    {st st2 : TableState} {c : Str}
    (hc : isColumnDefinition (trimL c) = true)
    (h : processClause tn d o st c = .ok st2)
    (hP : ∀ fk ∈ st.foreignKeys, ∀ cn ∈ fk.columns,
      cn ∈ st.columns.map (fun col => col.name)) :
    st2.primaryKey = st.primaryKey ∧ st2.uniqueKeys = st.uniqueKeys ∧
    st2.indexes = st.indexes ∧
    (∀ fk ∈ st2.foreignKeys, ∀ cn ∈ fk.columns,
      cn ∈ st2.columns.map (fun col => col.name)) := by
  unfold processClause at h
  rw [if_pos hc] at h
  cases hpc : parseColumnDefinition (trimL c) d with
  | error e => rw [hpc] at h; cases h
  | ok col =>
    rw [hpc] at h
    cases hif : scanMatch matchInlineFkAt (trimL c) with
    | some v =>
      obtain ⟨tbl, refCol, onDel, onUpd⟩ := v
      rw [hif] at h
      cases h
      refine ⟨rfl, rfl, rfl, ?_⟩
      intro fk hfk cn hcn
      show cn ∈ (st.columns ++ [col]).map (fun col => col.name)
      rw [List.map_append, List.mem_append]
      rw [show ({ st with
          columns := st.columns ++ [col]
          foreignKeys := st.foreignKeys ++
            [{ name := "fk_".data ++ tn ++ "_".data ++ col.name
               columns := [col.name]
               referencedTable := cleanIdentifier tbl
               referencedColumns := [cleanIdentifier refCol]
               onUpdate := onUpd
               onDelete := onDel }] } : TableState).foreignKeys
        = st.foreignKeys ++
            [{ name := "fk_".data ++ tn ++ "_".data ++ col.name
               columns := [col.name]
               referencedTable := cleanIdentifier tbl
               referencedColumns := [cleanIdentifier refCol]
               onUpdate := onUpd
               onDelete := onDel }] from rfl, List.mem_append] at hfk
      rcases hfk with hold | hnew
      · exact Or.inl (hP fk hold cn hcn)
      · right
        have hfkeq : fk = { name := "fk_".data ++ tn ++ "_".data ++ col.name
                            columns := [col.name]
                            referencedTable := cleanIdentifier tbl
                            referencedColumns := [cleanIdentifier refCol]
                            onUpdate := onUpd
                            onDelete := onDel } := by simpa using hnew
      -- the new foreign key constrains exactly the freshly appended column
        subst hfkeq
        have : cn = col.name := by simpa using hcn
        subst this
        simp
    | none =>
      rw [hif] at h
      cases h
      refine ⟨rfl, rfl, rfl, ?_⟩
      intro fk hfk cn hcn
      show cn ∈ (st.columns ++ [col]).map (fun col => col.name)
      rw [List.map_append, List.mem_append]
      exact Or.inl (hP fk hfk cn hcn)

theorem processClauses_colDefs {tn : Str} {d : SqlDialect}
    {o : ValidatedParseOptions} {cs : List Str} :
    ∀ {st st2 : TableState},
    (∀ c ∈ cs, isColumnDefinition (trimL c) = true) →
    processClauses tn d o cs st = .ok st2 →
    (∀ fk ∈ st.foreignKeys, ∀ cn ∈ fk.columns,
      cn ∈ st.columns.map (fun col => col.name)) →
    st2.primaryKey = st.primaryKey ∧ st2.uniqueKeys = st.uniqueKeys ∧
    st2.indexes = st.indexes ∧
    (∀ fk ∈ st2.foreignKeys, ∀ cn ∈ fk.columns,
      cn ∈ st2.columns.map (fun col => col.name)) := by
  induction cs with
  | nil =>
    intro st st2 _ h hP
    unfold processClauses at h
    cases h
    exact ⟨rfl, rfl, rfl, hP⟩
  | cons c rest ih =>
    intro st st2 hall h hP
    unfold processClauses at h
    cases hpc : processClause tn d o st c with
    | error e => rw [hpc] at h; cases h
    | ok stm =>
      rw [hpc] at h
      obtain ⟨p1, p2, p3, p4⟩ := processClause_colDef (hall c (by simp)) hpc hP
      obtain ⟨q1, q2, q3, q4⟩ := ih (fun x hx => hall x (by simp [hx])) h p4
      exact ⟨q1.trans p1, q2.trans p2, q3.trans p3, q4⟩

theorem processClause_refs {tn : Str} {d : SqlDialect} {o : ValidatedParseOptions}
    {st st2 : TableState} {c : Str}
    (h : processClause tn d o st c = .ok st2) :
    ((startsWithL "PRIMARY KEY".data (upStr (trimL c)) = true →
        parsePrimaryKey (trimL c) = []) →
      st.primaryKey = [] → st2.primaryKey = []) ∧
    (startsWithL "FOREIGN KEY".data (upStr (trimL c)) = false →
      (∀ fk ∈ st.foreignKeys, ∀ cn ∈ fk.columns,
        cn ∈ st.columns.map (fun col => col.name)) →
      ∀ fk ∈ st2.foreignKeys, ∀ cn ∈ fk.columns,
        cn ∈ st2.columns.map (fun col => col.name)) := by
  unfold processClause at h
  by_cases h1 : isColumnDefinition (trimL c) = true
  · rw [if_pos h1] at h
    cases hpc : parseColumnDefinition (trimL c) d with
    | error e => rw [hpc] at h; cases h
    | ok col =>
      rw [hpc] at h
      cases hif : scanMatch matchInlineFkAt (trimL c) with
      | some v =>
        obtain ⟨tbl, refCol, onDel, onUpd⟩ := v
        rw [hif] at h
        cases h
        refine ⟨fun _ h0 => h0, ?_⟩
        intro _ hP fk hfk cn hcn
        show cn ∈ (st.columns ++ [col]).map (fun col => col.name)
        rw [List.map_append, List.mem_append]
        rw [show ({ st with
            columns := st.columns ++ [col]
            foreignKeys := st.foreignKeys ++
              [{ name := "fk_".data ++ tn ++ "_".data ++ col.name
                 columns := [col.name]
                 referencedTable := cleanIdentifier tbl
                 referencedColumns := [cleanIdentifier refCol]
                 onUpdate := onUpd
                 onDelete := onDel }] } : TableState).foreignKeys
          = st.foreignKeys ++
              [{ name := "fk_".data ++ tn ++ "_".data ++ col.name
                 columns := [col.name]
                 referencedTable := cleanIdentifier tbl
                 referencedColumns := [cleanIdentifier refCol]
                 onUpdate := onUpd
                 onDelete := onDel }] from rfl, List.mem_append] at hfk
        rcases hfk with hold | hnew
        · exact Or.inl (hP fk hold cn hcn)
        · right
          have hfkeq : fk = { name := "fk_".data ++ tn ++ "_".data ++ col.name
                              columns := [col.name]
                              referencedTable := cleanIdentifier tbl
                              referencedColumns := [cleanIdentifier refCol]
                              onUpdate := onUpd
                              onDelete := onDel } := by simpa using hnew
        -- the new foreign key constrains exactly the freshly appended column
          subst hfkeq
          have : cn = col.name := by simpa using hcn
          subst this
          simp
      | none =>
        rw [hif] at h
        cases h
        refine ⟨fun _ h0 => h0, ?_⟩
        intro _ hP fk hfk cn hcn
        show cn ∈ (st.columns ++ [col]).map (fun col => col.name)
        rw [List.map_append, List.mem_append]
        exact Or.inl (hP fk hfk cn hcn)
  · rw [if_neg h1] at h
    by_cases h2 : startsWithL "PRIMARY KEY".data (upStr (trimL c)) = true
    · rw [if_pos h2] at h
      cases h
      exact ⟨fun himp _ => himp h2, fun _ hP fk hfk cn hcn => hP fk hfk cn hcn⟩
    · rw [if_neg h2] at h
      by_cases h3 : startsWithL "UNIQUE".data (upStr (trimL c)) = true
      · rw [if_pos h3] at h
        cases h
        exact ⟨fun _ h0 => h0, fun _ hP fk hfk cn hcn => hP fk hfk cn hcn⟩
      · rw [if_neg h3] at h
        by_cases h4 : startsWithL "FOREIGN KEY".data (upStr (trimL c)) = true
        · rw [if_pos h4] at h
          cases hfk2 : parseForeignKey (trimL c) with
          | error e => rw [hfk2] at h; cases h
          | ok fk0 =>
            rw [hfk2] at h
            cases h
            refine ⟨fun _ h0 => h0, ?_⟩
            intro hne
            rw [hne] at h4
            exact Bool.noConfusion h4
        · rw [if_neg h4] at h
          by_cases h5 : (o.includeIndexes = true ∧ isIndexDefinition (trimL c) = true)
          · rw [if_pos h5] at h
            cases hidx : parseIndexDefinition (trimL c) with
            | error e => rw [hidx] at h; cases h
            | ok idx =>
              rw [hidx] at h
              cases h
              exact ⟨fun _ h0 => h0, fun _ hP fk hfk cn hcn => hP fk hfk cn hcn⟩
          · rw [if_neg h5] at h
            cases h
            exact ⟨fun _ h0 => h0, fun _ hP fk hfk cn hcn => hP fk hfk cn hcn⟩

theorem processClauses_refs {tn : Str} {d : SqlDialect}
    {o : ValidatedParseOptions} {cs : List Str} :
    ∀ {st st2 : TableState},
    processClauses tn d o cs st = .ok st2 →
    ((∀ c ∈ cs, startsWithL "PRIMARY KEY".data (upStr (trimL c)) = true →
        parsePrimaryKey (trimL c) = []) →
      st.primaryKey = [] → st2.primaryKey = []) ∧
    ((∀ c ∈ cs, startsWithL "FOREIGN KEY".data (upStr (trimL c)) = false) →
      (∀ fk ∈ st.foreignKeys, ∀ cn ∈ fk.columns,
        cn ∈ st.columns.map (fun col => col.name)) →
      ∀ fk ∈ st2.foreignKeys, ∀ cn ∈ fk.columns,
        cn ∈ st2.columns.map (fun col => col.name)) := by
  induction cs with
  | nil =>
    intro st st2 h
    unfold processClauses at h
    cases h
    exact ⟨fun _ h0 => h0, fun _ hP => hP⟩
  | cons c rest ih =>
    intro st st2 h
    unfold processClauses at h
    cases hpc : processClause tn d o st c with
    | error e => rw [hpc] at h; cases h
    | ok stm =>
      rw [hpc] at h
      obtain ⟨p1, f1⟩ := processClause_refs hpc
      obtain ⟨p2, f2⟩ := ih h
      constructor
      · intro hall h0
        exact p2 (fun x hx => hall x (by simp [hx])) (p1 (hall c (by simp)) h0)
      · intro hall hP
        exact f2 (fun x hx => hall x (by simp [hx])) (f1 (hall c (by simp)) hP)

/-- C4 amended: an implicitly promoted primary key and the constrained
columns of inline `REFERENCES` foreign keys always name columns of the
table, for arbitrary table bodies.  Whenever no table-level `PRIMARY KEY`
clause takes effect (so any primary key present arose from the implicit
promotion), every primary-key name names a parsed column; and whenever no
table-level `FOREIGN KEY` clause occurs (so every foreign key arose from
inline `REFERENCES`), every constrained column name of every foreign key
names a parsed column.  Other table-level clauses may appear freely;
explicit constraint clauses copy names verbatim without validation, which
is what the counterexample exploits. -/
theorem C4_refs_amended (tn body : Str) (d : SqlDialect)
    (o : ValidatedParseOptions) (t : Table)
    (hok : parseTableDefinition tn body d o = .ok t) :
    ((∀ c ∈ splitTableStatements body,
        startsWithL "PRIMARY KEY".data (upStr (trimL c)) = true →
        parsePrimaryKey (trimL c) = []) →
      ∀ pk ∈ t.primaryKey.getD [], pk ∈ columnNames t) ∧
    ((∀ c ∈ splitTableStatements body,
        startsWithL "FOREIGN KEY".data (upStr (trimL c)) = false) →
      ∀ fk ∈ t.foreignKeys, ∀ cn ∈ fk.columns, cn ∈ columnNames t) := by
  unfold parseTableDefinition at hok
  cases hps : processClauses tn d o (splitTableStatements body) initialTableState with
  | error e => rw [hps] at hok; cases hok
  | ok st =>
    rw [hps] at hok
    obtain ⟨hpkP, hfkP⟩ := processClauses_refs hps
    cases hok
    constructor
    · intro hall pkc hpkc
      have hpk0 : st.primaryKey = [] := hpkP hall rfl
      show pkc ∈ (st.columns.map (fun col => col.name))
      revert hpkc
      show pkc ∈ (if (if st.primaryKey.length = 0 then inferPrimaryKey st.columns
            else st.primaryKey).length > 0 then
          some (if st.primaryKey.length = 0 then inferPrimaryKey st.columns
                else st.primaryKey)
        else none).getD [] → pkc ∈ st.columns.map (fun col => col.name)
      rw [hpk0]
      unfold inferPrimaryKey
      cases hf : st.columns.filter pkCandidate with
      | nil => intro hpkc; simp at hpkc
      | cons c1 cr =>
        cases cr with
        | nil =>
          intro hpkc
          have : pkc = c1.name := by simpa using hpkc
          subst this
          have hc1 : c1 ∈ st.columns := List.mem_of_mem_filter (by rw [hf]; simp)
          exact List.mem_map_of_mem _ hc1
        | cons c2 cr2 => intro hpkc; simp at hpkc
    · intro hall fk hfkm cn hcn
      exact hfkP hall (by intro fk2 hf2; simp [initialTableState] at hf2)
        fk hfkm cn hcn

set_option maxRecDepth 400000 in
/-- Witness for C4 amended at a concrete mixed body: a column clause with an
inline foreign key plus a table-level `UNIQUE` clause; the implicitly
promoted primary key and the inline foreign key both name the declared
column. -/
theorem C4_refs_witness :
    (∀ pk ∈ ({ name := "t".data
               columns := [{ name := "uid".data
                             type := { type := "INT".data, length := none, scale := none }
                             nullable := false
                             autoIncrement := false
                             default := none }]
               primaryKey := some ["uid".data]
               uniqueKeys := [["zz".data]]
               indexes := []
               foreignKeys := [{ name := "fk_t_uid".data
                                 columns := ["uid".data]
                                 referencedTable := "users".data
                                 referencedColumns := ["id".data]
                                 onUpdate := none
                                 onDelete := none }] } : Table).primaryKey.getD [],
      pk ∈ columnNames
        { name := "t".data
          columns := [{ name := "uid".data
                        type := { type := "INT".data, length := none, scale := none }
                        nullable := false
                        autoIncrement := false
                        default := none }]
          primaryKey := some ["uid".data]
          uniqueKeys := [["zz".data]]
          indexes := []
          foreignKeys := [{ name := "fk_t_uid".data
                            columns := ["uid".data]
                            referencedTable := "users".data
                            referencedColumns := ["id".data]
                            onUpdate := none
                            onDelete := none }] }) ∧
    (∀ fk ∈ ({ name := "t".data
               columns := [{ name := "uid".data
                             type := { type := "INT".data, length := none, scale := none }
                             nullable := false
                             autoIncrement := false
                             default := none }]
               primaryKey := some ["uid".data]
               uniqueKeys := [["zz".data]]
               indexes := []
               foreignKeys := [{ name := "fk_t_uid".data
                                 columns := ["uid".data]
                                 referencedTable := "users".data
                                 referencedColumns := ["id".data]
                                 onUpdate := none
                                 onDelete := none }] } : Table).foreignKeys,
      ∀ cn ∈ fk.columns, cn ∈ columnNames
        { name := "t".data
          columns := [{ name := "uid".data
                        type := { type := "INT".data, length := none, scale := none }
                        nullable := false
                        autoIncrement := false
                        default := none }]
          primaryKey := some ["uid".data]
          uniqueKeys := [["zz".data]]
          indexes := []
          foreignKeys := [{ name := "fk_t_uid".data
                            columns := ["uid".data]
                            referencedTable := "users".data
                            referencedColumns := ["id".data]
                            onUpdate := none
                            onDelete := none }] }) := by
  have h := C4_refs_amended "t".data
      "uid INT NOT NULL REFERENCES users(id), UNIQUE (zz)".data .mysql
      (mergeOptions {})
      { name := "t".data
        columns := [{ name := "uid".data
                      type := { type := "INT".data, length := none, scale := none }
                      nullable := false
                      autoIncrement := false
                      default := none }]
        primaryKey := some ["uid".data]
        uniqueKeys := [["zz".data]]
        indexes := []
        foreignKeys := [{ name := "fk_t_uid".data
                          columns := ["uid".data]
                          referencedTable := "users".data
                          referencedColumns := ["id".data]
                          onUpdate := none
                          onDelete := none }] }
      (by rfl)
  exact ⟨h.1 (by decide), h.2 (by decide)⟩

theorem startsWithL_cons {p : Char} {ps u : Str}
    (h : startsWithL (p :: ps) u = true) :
    ∃ cs, u = p :: cs ∧ startsWithL ps cs = true := by
  cases u with
  | nil => simp [startsWithL] at h
  | cons c cs =>
    unfold startsWithL at h
    rw [Bool.and_eq_true] at h
    obtain ⟨h1, h2⟩ := h
    exact ⟨cs, by rw [of_decide_eq_true h1], h2⟩

theorem startsWith_head_ne {p q : Char} {ps qs u : Str} (hne : q ≠ p)
    (h : startsWithL (p :: ps) u = true) :
    startsWithL (q :: qs) u = false := by
  obtain ⟨cs, rfl, -⟩ := startsWithL_cons h
  unfold startsWithL
  rw [decide_eq_false hne, Bool.false_and]

set_option maxRecDepth 200000 in
/-- C7 counterexample: the clause `CONSTRAINT ck UNIQUE (a)` starts with none
of the five classification keywords, yet it is not parsed as a column
definition: the clause loop leaves the state untouched even though the column
parser would accept the clause. -/
theorem C7_cex :
    (startsWithL "PRIMARY KEY".data (upStr (trimL "CONSTRAINT ck UNIQUE (a)".data)) = false ∧
     startsWithL "UNIQUE".data (upStr (trimL "CONSTRAINT ck UNIQUE (a)".data)) = false ∧
     startsWithL "FOREIGN KEY".data (upStr (trimL "CONSTRAINT ck UNIQUE (a)".data)) = false ∧
     startsWithL "INDEX".data (upStr (trimL "CONSTRAINT ck UNIQUE (a)".data)) = false ∧
     startsWithL "KEY".data (upStr (trimL "CONSTRAINT ck UNIQUE (a)".data)) = false) ∧
    processClause "t".data .mysql (mergeOptions {}) initialTableState
        "CONSTRAINT ck UNIQUE (a)".data = .ok initialTableState ∧
    parseColumnDefinition (trimL "CONSTRAINT ck UNIQUE (a)".data) .mysql
      = .ok { name := "CONSTRAINT".data
              type := { type := "CK".data, length := none, scale := none }
              nullable := true
              autoIncrement := false
              default := none } :=
  ⟨⟨by decide, by decide, by decide, by decide, by decide⟩, by rfl, by rfl⟩

/-- C7 amended: clause dispatch is by leading keyword after trimming, with
two corrections to the claim: clauses starting with `CONSTRAINT` are ignored
(neither constraint-parsed nor column-parsed), and `INDEX`/`KEY` clauses are
parsed only when index inclusion is enabled (they are ignored otherwise);
every clause starting with none of the six keywords is parsed as a column
definition. -/
theorem C7_classification_amended (tn : Str) (d : SqlDialect)
    (o : ValidatedParseOptions) (st : TableState) (c : Str) :
    (startsWithL "PRIMARY KEY".data (upStr (trimL c)) = true →
      processClause tn d o st c
        = .ok { st with primaryKey := parsePrimaryKey (trimL c) }) ∧
    (startsWithL "UNIQUE".data (upStr (trimL c)) = true →
      processClause tn d o st c
        = .ok { st with uniqueKeys := st.uniqueKeys ++ [parseUniqueKey (trimL c)] }) ∧
    (startsWithL "FOREIGN KEY".data (upStr (trimL c)) = true →
      processClause tn d o st c
        = match parseForeignKey (trimL c) with
          | .ok fk => .ok { st with foreignKeys := st.foreignKeys ++ [fk] }
          | .error e => .error e) ∧
    ((startsWithL "INDEX".data (upStr (trimL c)) = true ∨
      startsWithL "KEY".data (upStr (trimL c)) = true) →
      processClause tn d o st c
        = if o.includeIndexes then
            match parseIndexDefinition (trimL c) with
            | .ok idx => .ok { st with indexes := st.indexes ++ [idx] }
            | .error e => .error e
          else .ok st) ∧
    (startsWithL "CONSTRAINT".data (upStr (trimL c)) = true →
      processClause tn d o st c = .ok st) ∧
    (isColumnDefinition (trimL c) = true →
      processClause tn d o st c
        = match parseColumnDefinition (trimL c) d with
          | .error e => .error e
          | .ok column =>
            match scanMatch matchInlineFkAt (trimL c) with
            | some (tbl, refCol, onDel, onUpd) =>
              .ok { st with
                columns := st.columns ++ [column]
                foreignKeys := st.foreignKeys ++
                  [{ name := "fk_".data ++ tn ++ "_".data ++ column.name
                     columns := [column.name]
                     referencedTable := cleanIdentifier tbl
                     referencedColumns := [cleanIdentifier refCol]
                     onUpdate := onUpd
                     onDelete := onDel }] }
            | none => .ok { st with columns := st.columns ++ [column] }) := by
  refine ⟨?_, ?_, ?_, ?_, ?_, ?_⟩
  · intro h
    unfold processClause
    rw [if_neg (by
      simp only [isColumnDefinition, trimL_idem, decide_eq_true_eq]
      intro hcol
      exact hcol.1 h)]
    rw [if_pos h]
  · intro h
    have hpkf : startsWithL "PRIMARY KEY".data (upStr (trimL c)) = false :=
      startsWith_head_ne (by decide) h
    unfold processClause
    rw [if_neg (by
      simp only [isColumnDefinition, trimL_idem, decide_eq_true_eq]
      intro hcol
      exact hcol.2.2.1 h)]
    rw [if_neg (by simp [hpkf]), if_pos h]
  · intro h
    have hpkf : startsWithL "PRIMARY KEY".data (upStr (trimL c)) = false :=
      startsWith_head_ne (by decide) h
    have hunf : startsWithL "UNIQUE".data (upStr (trimL c)) = false :=
      startsWith_head_ne (by decide) h
    unfold processClause
    rw [if_neg (by
      simp only [isColumnDefinition, trimL_idem, decide_eq_true_eq]
      intro hcol
      exact hcol.2.1 h)]
    rw [if_neg (by simp [hpkf]), if_neg (by simp [hunf]), if_pos h]
    cases parseForeignKey (trimL c) <;> rfl
  · intro h
    have hidx : isIndexDefinition (trimL c) = true := by
      simp only [isIndexDefinition, trimL_idem, decide_eq_true_eq]
      rcases h with h | h
      · exact Or.inl h
      · exact Or.inr h
    have hpkf : startsWithL "PRIMARY KEY".data (upStr (trimL c)) = false := by
      rcases h with h | h <;> exact startsWith_head_ne (by decide) h
    have hunf : startsWithL "UNIQUE".data (upStr (trimL c)) = false := by
      rcases h with h | h <;> exact startsWith_head_ne (by decide) h
    have hfkf : startsWithL "FOREIGN KEY".data (upStr (trimL c)) = false := by
      rcases h with h | h <;> exact startsWith_head_ne (by decide) h
    unfold processClause
    rw [if_neg (by
      simp only [isColumnDefinition, trimL_idem, decide_eq_true_eq]
      intro hcol
      rcases h with h | h
      · exact hcol.2.2.2.1 h
      · exact hcol.2.2.2.2.1 h)]
    rw [if_neg (by simp [hpkf]), if_neg (by simp [hunf]), if_neg (by simp [hfkf])]
    by_cases hio : o.includeIndexes = true
    · rw [if_pos ⟨hio, hidx⟩, if_pos hio]
      cases parseIndexDefinition (trimL c) <;> rfl
    · rw [if_neg (by rintro ⟨h1, -⟩; exact hio h1), if_neg hio]
  · intro h
    have hpkf : startsWithL "PRIMARY KEY".data (upStr (trimL c)) = false :=
      startsWith_head_ne (by decide) h
    have hunf : startsWithL "UNIQUE".data (upStr (trimL c)) = false :=
      startsWith_head_ne (by decide) h
    have hfkf : startsWithL "FOREIGN KEY".data (upStr (trimL c)) = false :=
      startsWith_head_ne (by decide) h
    have hixf : startsWithL "INDEX".data (upStr (trimL c)) = false :=
      startsWith_head_ne (by decide) h
    have hkyf : startsWithL "KEY".data (upStr (trimL c)) = false :=
      startsWith_head_ne (by decide) h
    unfold processClause
    rw [if_neg (by
      simp only [isColumnDefinition, trimL_idem, decide_eq_true_eq]
      intro hcol
      exact hcol.2.2.2.2.2 h)]
    rw [if_neg (by simp [hpkf]), if_neg (by simp [hunf]), if_neg (by simp [hfkf]),
        if_neg (by
          rintro ⟨-, hi⟩
          have hif : isIndexDefinition (trimL c) = false := by
            simp only [isIndexDefinition, trimL_idem]
            rw [decide_eq_false]
            rintro (hx | hx)
            · rw [hixf] at hx; cases hx
            · rw [hkyf] at hx; cases hx
          rw [hif] at hi
          cases hi)]
  · intro h
    unfold processClause
    rw [if_pos h]

set_option maxRecDepth 200000 in
/-- Witness for C7 amended at a concrete `PRIMARY KEY` clause. -/
theorem C7_classification_witness :
    processClause "t".data .mysql (mergeOptions {}) initialTableState
        "PRIMARY KEY (a)".data
      = .ok { initialTableState with
              primaryKey := parsePrimaryKey (trimL "PRIMARY KEY (a)".data) } :=
  (C7_classification_amended "t".data .mysql (mergeOptions {}) initialTableState
    "PRIMARY KEY (a)".data).1 (by decide)

/-- C10: the `includeActions` option is dead: for every input, dialect
argument and setting of the other options, `parseDdl` returns the same result
whatever value the option takes (referential actions are parsed
unconditionally). -/
theorem C10_includeActionsNoop (sql : Str) (d : Option SqlDialect)
    (o : ParseOptionsIn) (a b : Option Bool) :
    parseDdl sql d { o with includeActions := a }
      = parseDdl sql d { o with includeActions := b } := by
  have hgo : ∀ d2 : SqlDialect,
      parseTableStatements (cleanSql sql) d2
        (mergeOptions { o with includeActions := a })
      = parseTableStatements (cleanSql sql) d2
        (mergeOptions { o with includeActions := b }) :=
    fun d2 => parseTableStatementsGo_opts d2
      (p := mergeOptions { o with includeActions := a })
      (q := mergeOptions { o with includeActions := b }) rfl rfl
      ((cleanSql sql).length + 1) (cleanSql sql)
  have hst : (mergeOptions { o with includeActions := a }).strict
      = (mergeOptions { o with includeActions := b }).strict := rfl
  have hinf : (mergeOptions { o with includeActions := a }).inferDialect
      = (mergeOptions { o with includeActions := b }).inferDialect := rfl
  unfold parseDdl
  by_cases he : (trimL sql).isEmpty = true
  · rw [if_pos he, if_pos he]
  · rw [if_neg he, if_neg he]
    simp only [hgo, hst, hinf]

theorem mapMOpt_enc {α β : Type} {f : β → Option α} {g : α → β} (l : List α)
    (h : ∀ x ∈ l, f (g x) = some x) : mapMOpt f (l.map g) = some l := by
  induction l with
  | nil => rfl
  | cons a as ih =>
    rw [List.map_cons]
    unfold mapMOpt
    rw [h a (by simp), ih (fun x hx => h x (by simp [hx]))]
    rfl

theorem strListRT (l : List Str) :
    mapMOpt decodeStr (l.map Json.str) = some l :=
  mapMOpt_enc l (fun _ _ => rfl)

theorem strListArrRT (l : List Str) :
    decodeStrList (Json.arr (l.map .str)) = some l :=
  strListRT l

theorem actionRT (a : FkAction) : decodeFkAction (fkActionText a) = some a := by
  cases a <;> rfl

theorem dialectRT (d : SqlDialect) : decodeDialect (dialectText d) = some d := by
  cases d <;> rfl

theorem columnRT (c : Column) (hfin : columnFinite c = true) :
    decodeColumn (encodeColumn c) = some c := by
  obtain ⟨nm, ⟨tn, len, sc⟩, nb, ai, df⟩ := c
  cases df with
  | none => cases len <;> cases sc <;> rfl
  | some v =>
    cases v with
    | nil => cases len <;> cases sc <;> rfl
    | bool b => cases len <;> cases sc <;> rfl
    | str s => cases len <;> cases sc <;> rfl
    | num n =>
      cases n with
      | fin q => cases len <;> cases sc <;> rfl
      | inf => simp [columnFinite, finitePrim] at hfin
      | negInf => simp [columnFinite, finitePrim] at hfin

theorem indexRT (i : IndexDef) : decodeIndex (encodeIndex i) = some i := by
  obtain ⟨nm, ty, cols, u⟩ := i
  simp [encodeIndex, decodeIndex, getField, decodeStr, decodeBool, decodeStrList,
    strListRT]

theorem foreignKeyRT (fk : ForeignKey) :
    decodeForeignKey (encodeForeignKey fk) = some fk := by
  obtain ⟨nm, cols, rt, rc, ou, od⟩ := fk
  cases ou <;> cases od <;>
    simp [encodeForeignKey, decodeForeignKey, getField, decodeOptField, decodeStr,
      decodeStrList, strListRT, actionRT]

theorem tableRT (t : Table) (hfin : t.columns.all columnFinite = true) :
    decodeTable (encodeTable t) = some t := by
  obtain ⟨nm, cols, pk, uks, idxs, fks⟩ := t
  have hcols : mapMOpt decodeColumn (cols.map encodeColumn) = some cols :=
    mapMOpt_enc cols (fun x hx =>
      columnRT x (by
        rw [List.all_eq_true] at hfin
        exact hfin x hx))
  have huks : mapMOpt decodeStrList
      (uks.map (fun u => Json.arr (u.map .str))) = some uks :=
    mapMOpt_enc uks (fun u _ => strListArrRT u)
  have hidxs : mapMOpt decodeIndex (idxs.map encodeIndex) = some idxs :=
    mapMOpt_enc idxs (fun x _ => indexRT x)
  have hfks : mapMOpt decodeForeignKey (fks.map encodeForeignKey) = some fks :=
    mapMOpt_enc fks (fun x _ => foreignKeyRT x)
  cases pk <;>
    simp [encodeTable, decodeTable, getField, decodeOptField, decodeStr,
      decodeStrList, strListRT, hcols, huks, hidxs, hfks]

/-- C1 amended: serializing a schema and deserializing it back reproduces the
schema exactly, provided no default value is one of the non-finite numbers
(which `JSON.stringify` flattens to `null`, as the counterexample shows). -/
theorem C1_roundTrip_amended (s : DatabaseSchema)
    (hfin : schemaFiniteDefaults s = true) :
    fromJSON (toJSON s) = some s := by
  obtain ⟨d, ts, v⟩ := s
  have hts : mapMOpt decodeTable (ts.map encodeTable) = some ts :=
    mapMOpt_enc ts (fun t ht =>
      tableRT t (by
        unfold schemaFiniteDefaults at hfin
        rw [List.all_eq_true] at hfin
        exact hfin t ht))
  simp [toJSON, fromJSON, getField, decodeStr, dialectRT, hts]

set_option maxRecDepth 400000 in
/-- C1 counterexample: `DEFAULT Infinity` parses to a non-finite default
value, which serializes as `null`; deserializing therefore yields a schema
whose default is `null`, not the original value, so the round-trip is not
lossless for every parsed schema. -/
theorem C1_cex :
    parseDdl "CREATE TABLE t (a INT DEFAULT Infinity)".data (some .mysql) {}
      = .ok
      { dialect := .mysql
        tables := [{ name := "t".data
                     columns := [{ name := "a".data
                                   type := { type := "INT".data, length := none, scale := none }
                                   nullable := true
                                   autoIncrement := false
                                   default := some (.num .inf) }]
                     primaryKey := none
                     uniqueKeys := []
                     indexes := []
                     foreignKeys := [] }]
        version := "1.0".data } ∧
    fromJSON (toJSON
      { dialect := .mysql
        tables := [{ name := "t".data
                     columns := [{ name := "a".data
                                   type := { type := "INT".data, length := none, scale := none }
                                   nullable := true
                                   autoIncrement := false
                                   default := some (.num .inf) }]
                     primaryKey := none
                     uniqueKeys := []
                     indexes := []
                     foreignKeys := [] }]
        version := "1.0".data })
      = some
      { dialect := .mysql
        tables := [{ name := "t".data
                     columns := [{ name := "a".data
                                   type := { type := "INT".data, length := none, scale := none }
                                   nullable := true
                                   autoIncrement := false
                                   default := some .nil }]
                     primaryKey := none
                     uniqueKeys := []
                     indexes := []
                     foreignKeys := [] }]
        version := "1.0".data } ∧
    ({ dialect := .mysql
       tables := [{ name := "t".data
                    columns := [{ name := "a".data
                                  type := { type := "INT".data, length := none, scale := none }
                                  nullable := true
                                  autoIncrement := false
                                  default := some .nil }]
                    primaryKey := none
                    uniqueKeys := []
                    indexes := []
                    foreignKeys := [] }]
       version := "1.0".data } : DatabaseSchema)
      ≠ { dialect := .mysql
          tables := [{ name := "t".data
                       columns := [{ name := "a".data
                                     type := { type := "INT".data, length := none, scale := none }
                                     nullable := true
                                     autoIncrement := false
                                     default := some (.num .inf) }]
                       primaryKey := none
                       uniqueKeys := []
                       indexes := []
                       foreignKeys := [] }]
          version := "1.0".data } :=
  ⟨by rfl, by rfl, by decide⟩

set_option maxRecDepth 200000 in
/-- Witness for C1 amended at a concrete finite-default schema. -/
theorem C1_roundTrip_witness :
    schemaFiniteDefaults
      { dialect := .mysql
        tables := [{ name := "t".data
                     columns := [{ name := "a".data
                                   type := { type := "INT".data, length := none, scale := none }
                                   nullable := false
                                   autoIncrement := false
                                   default := some (.num (.fin 5)) }]
                     primaryKey := none
                     uniqueKeys := []
                     indexes := []
                     foreignKeys := [] }]
        version := "1.0".data } = true ∧
    fromJSON (toJSON
      { dialect := .mysql
        tables := [{ name := "t".data
                     columns := [{ name := "a".data
                                   type := { type := "INT".data, length := none, scale := none }
                                   nullable := false
                                   autoIncrement := false
                                   default := some (.num (.fin 5)) }]
                     primaryKey := none
                     uniqueKeys := []
                     indexes := []
                     foreignKeys := [] }]
        version := "1.0".data })
      = some
      { dialect := .mysql
        tables := [{ name := "t".data
                     columns := [{ name := "a".data
                                   type := { type := "INT".data, length := none, scale := none }
                                   nullable := false
                                   autoIncrement := false
                                   default := some (.num (.fin 5)) }]
                     primaryKey := none
                     uniqueKeys := []
                     indexes := []
                     foreignKeys := [] }]
        version := "1.0".data } :=
  ⟨by decide,
   C1_roundTrip_amended _ (by decide)⟩

end SQLhelper
